import Mathlib

/-!
Verification development for the F1 telemetry persistence layer
(`src/database/repository.py` together with the schema in
`src/database/models.py`).

The relational store is modelled as a value of type `DB`: one list of rows
per table, plus a single surrogate-id counter (`nextId`) standing for the
autoincrement sequences; only uniqueness and equality of identifiers is ever
observable, so one shared counter is faithful.  SQLAlchemy sessions are
modelled by explicit state passing: each importer threads a *committed*
database and a *working* database; `commit` replaces the committed state by
the working state, an exception makes the operation return the committed
state unchanged (rollback discards everything not yet committed).  Python
floats are modelled as rationals (`ℚ`), Python dicts as insertion-ordered
association lists, a missing optional key as `none`.  Exceptions (a frame
dictionary without the required key `t`, an unparsable lap-time string, a
simulated storage fault) make an importer return `none` together with the
committed state.  All definitions are executable and decidable so concrete
runs can be checked by `decide`.
-/

/-- Weather snapshot of a telemetry frame.  The importer reads each field
with `weather.get(...)`, and the columns are nullable, so every field is
optional. -/
structure Weather where
  track_temp : Option ℚ
  air_temp : Option ℚ
  humidity : Option ℚ
  wind_speed : Option ℚ
  wind_direction : Option ℚ
  rain_state : Option String
deriving DecidableEq

/-- One driver's sample inside one frame of the caller-supplied race payload.
`x` and `y` are accessed as `driver_data['x']` / `['y']` (required); every
other field is read with `.get` and may be absent. -/
structure DriverSample where
  x : ℚ
  y : ℚ
  dist : Option ℚ
  rel_dist : Option ℚ
  position : Option Int
  lap : Option Int
  speed : Option ℚ
  gear : Option Int
  drs : Option Int
  throttle : Option ℚ
  brake : Option ℚ
  tyre : Option ℚ
deriving DecidableEq

/-- One frame of the caller-supplied race payload.  The importer reads
`frame_data['t']`; `t = none` models a frame dictionary missing the required
timestamp key (a malformed payload, which raises). -/
structure InFrame where
  t : Option ℚ
  lap : Option Int
  weather : Option Weather
  drivers : List (String × DriverSample)
deriving DecidableEq

/-- One track-status interval of the caller-supplied payload:
`{status, start_time, end_time?}`. -/
structure TrackStatusIn where
  status : String
  start_time : ℚ
  end_time : Option ℚ
deriving DecidableEq

/-- The race/sprint telemetry payload:
`{frames, driver_colors, track_statuses, total_laps}`. -/
structure RacePayload where
  frames : List InFrame
  driver_colors : List (String × (Int × Int × Int))
  track_statuses : List TrackStatusIn
  total_laps : Int
deriving DecidableEq

/-- Session metadata dictionary; every field is read with `.get` and a
default. -/
structure SessionInfo where
  event_name : Option String
  circuit_name : Option String
  country : Option String
  date : Option String
  circuit_rotation : Option ℚ
deriving DecidableEq

/-- Row of the `sessions` table.  `total_laps` and `circuit_rotation` are
nullable: the qualifying importer never sets them. -/
structure SessionRow where
  id : Nat
  year : Int
  round_number : Int
  session_type : String
  event_name : String
  circuit_name : String
  country : String
  event_date : String
  total_laps : Option Int
  circuit_rotation : Option ℚ
deriving DecidableEq

/-- Row of the `drivers` table (the `driver_number` and `team` columns are
never written by the repository and are omitted). -/
structure DriverRow where
  id : Nat
  session_id : Nat
  driver_code : String
  full_name : Option String
  color_r : Int
  color_g : Int
  color_b : Int
deriving DecidableEq

/-- Row of the `telemetry_frames` table. -/
structure FrameRow where
  id : Nat
  session_id : Nat
  time : ℚ
  lap : Option Int
  track_temp : Option ℚ
  air_temp : Option ℚ
  humidity : Option ℚ
  wind_speed : Option ℚ
  wind_direction : Option ℚ
  rain_state : Option String
deriving DecidableEq

/-- Row of the `driver_telemetry` table (its surrogate id is never queried
and is omitted). -/
structure TeleRow where
  frame_id : Nat
  driver_id : Nat
  x : ℚ
  y : ℚ
  distance : Option ℚ
  relative_distance : Option ℚ
  position : Option Int
  lap : Option Int
  speed : Option ℚ
  gear : Option Int
  drs : Option Int
  throttle : Option ℚ
  brake : Option ℚ
  tyre_compound : Int
deriving DecidableEq

/-- Row of the `track_statuses` table (surrogate id never queried, omitted). -/
structure TrackStatusRow where
  session_id : Nat
  status : String
  start_time : ℚ
  end_time : Option ℚ
deriving DecidableEq

/-- Row of the `qualifying_results` table. -/
structure QualiResultRow where
  id : Nat
  session_id : Nat
  driver_id : Nat
  position : Int
  q1_time : Option ℚ
  q2_time : Option ℚ
  q3_time : Option ℚ
deriving DecidableEq

/-- One raw sample of a qualifying segment trace.  The repository stores the
sample list as an opaque JSON blob (`frames_json`) and never inspects it;
the fields follow the comment in `models.py`. -/
structure QSample where
  t : ℚ
  x : ℚ
  y : ℚ
  dist : ℚ
  rel_dist : ℚ
  speed : ℚ
  gear : Int
  throttle : ℚ
  brake : ℚ
  drs : Int
deriving DecidableEq

/-- The `sector_times` sub-dictionary of a qualifying segment. -/
structure SectorTimes where
  sector1 : Option ℚ
  sector2 : Option ℚ
  sector3 : Option ℚ
deriving DecidableEq

/-- Row of the `qualifying_telemetry` table (surrogate id never queried,
omitted).  DRS-zone entries are opaque to the repository; they are modelled
as rationals. -/
structure QualiTeleRow where
  result_id : Nat
  segment : String
  frames_json : List QSample
  max_speed : Option ℚ
  min_speed : Option ℚ
  sector1_time : Option ℚ
  sector2_time : Option ℚ
  sector3_time : Option ℚ
  compound : Option Int
  drs_zones_json : List ℚ
deriving DecidableEq

/-- The whole store: one list per table plus the surrogate-id counter. -/
structure DB where
  nextId : Nat
  sessions : List SessionRow
  drivers : List DriverRow
  frames : List FrameRow
  telemetry : List TeleRow
  track_statuses : List TrackStatusRow
  quali_results : List QualiResultRow
  quali_telemetry : List QualiTeleRow
deriving DecidableEq

/-- The empty store. -/
def emptyDB : DB :=
  { nextId := 0, sessions := [], drivers := [], frames := [], telemetry := [],
    track_statuses := [], quali_results := [], quali_telemetry := [] }

/-- Well-formedness of a store: every surrogate id and foreign key already
present is below the id counter, so freshly assigned ids never collide with
existing rows.  Holds for the empty store and is preserved by the importers. -/
def DB.wf (db : DB) : Bool :=
  db.sessions.all (fun s => decide (s.id < db.nextId)) &&
  db.drivers.all (fun d => decide (d.id < db.nextId) && decide (d.session_id < db.nextId)) &&
  db.frames.all (fun f => decide (f.id < db.nextId) && decide (f.session_id < db.nextId)) &&
  db.telemetry.all (fun t => decide (t.frame_id < db.nextId) && decide (t.driver_id < db.nextId)) &&
  db.track_statuses.all (fun ts => decide (ts.session_id < db.nextId)) &&
  db.quali_results.all (fun q => decide (q.id < db.nextId) && decide (q.session_id < db.nextId) && decide (q.driver_id < db.nextId)) &&
  db.quali_telemetry.all (fun qt => decide (qt.result_id < db.nextId))

/-- The session lookup by natural key used by every repository function:
`query(Session).filter(year, round_number, session_type).first()`. -/
def findSession (db : DB) (y r : Int) (st : String) : Option SessionRow :=
  db.sessions.find? (fun s => s.year == y && s.round_number == r && s.session_type == st)

/-- `check_session_exists`: the lookup result is not `None`. -/
def checkSessionExists (db : DB) (y r : Int) (st : String) : Bool :=
  (findSession db y r st).isSome

/-- Default RGB display color `(128, 128, 128)` used when a driver code has
no entry in the supplied color mapping. -/
def defaultColor : Int × Int × Int := (128, 128, 128)

/-- Python `int()` on a float value: truncation toward zero. -/
def pyInt (q : ℚ) : Int := Int.tdiv q.num (Int.ofNat q.den)

/-- The session row written by `save_race_telemetry` (`Session(...)`
constructor with `.get` defaults). -/
def sessionRowOfRace (sid : Nat) (y r : Int) (st : String) (info : SessionInfo)
    (p : RacePayload) : SessionRow :=
  { id := sid, year := y, round_number := r, session_type := st,
    event_name := info.event_name.getD "", circuit_name := info.circuit_name.getD "",
    country := info.country.getD "", event_date := info.date.getD "",
    total_laps := some p.total_laps, circuit_rotation := some (info.circuit_rotation.getD 0) }

/-- A driver row built by the race importer: color looked up in
`driver_colors` with default `(128, 128, 128)`, no full name. -/
def mkDriverRow (sid did : Nat) (code : String)
    (colors : List (String × (Int × Int × Int))) : DriverRow :=
  let c := (colors.lookup code).getD defaultColor
  { id := did, session_id := sid, driver_code := code, full_name := none,
    color_r := c.1, color_g := c.2.1, color_b := c.2.2 }

/-- The loop creating one `Driver` row per driver code of the first frame,
flushing each (id assignment), and building `driver_map`. -/
def addDrivers (sid : Nat) (colors : List (String × (Int × Int × Int))) :
    List String → DB → List (String × Nat) → DB × List (String × Nat)
  | [], db, dmap => (db, dmap)
  | code :: rest, db, dmap =>
    let did := db.nextId
    addDrivers sid colors rest
      { db with nextId := did + 1, drivers := db.drivers ++ [mkDriverRow sid did code colors] }
      (dmap ++ [(code, did)])

/-- A `TrackStatus` row from a payload entry. -/
def mkStatusRow (sid : Nat) (ts : TrackStatusIn) : TrackStatusRow :=
  { session_id := sid, status := ts.status, start_time := ts.start_time, end_time := ts.end_time }

/-- The empty weather dictionary (`frame_data.get('weather', {})` default). -/
def emptyWeather : Weather := ⟨none, none, none, none, none, none⟩

/-- The `TelemetryFrame` row written for one frame (weather fields read with
`.get` from the possibly-empty weather dictionary). -/
def mkFrameRow (sid fid : Nat) (f : InFrame) : FrameRow :=
  let w := f.weather.getD emptyWeather
  { id := fid, session_id := sid, time := f.t.getD 0, lap := f.lap,
    track_temp := w.track_temp, air_temp := w.air_temp, humidity := w.humidity,
    wind_speed := w.wind_speed, wind_direction := w.wind_direction, rain_state := w.rain_state }

/-- The `DriverTelemetry` row written for one driver sample; tyre compound is
`int(driver_data.get('tyre', 0))`. -/
def mkTeleRow (fid did : Nat) (s : DriverSample) : TeleRow :=
  { frame_id := fid, driver_id := did, x := s.x, y := s.y, distance := s.dist,
    relative_distance := s.rel_dist, position := s.position, lap := s.lap, speed := s.speed,
    gear := s.gear, drs := s.drs, throttle := s.throttle, brake := s.brake,
    tyre_compound := pyInt (s.tyre.getD 0) }

/-- The per-frame driver loop: one telemetry row per driver of the frame
whose code is in `driver_map` (`if driver_code in driver_map`). -/
def teleRowsOf (dmap : List (String × Nat)) (fid : Nat) (f : InFrame) : List TeleRow :=
  f.drivers.filterMap (fun cs => (dmap.lookup cs.1).map (fun did => mkTeleRow fid did cs.2))

/-- Adding one frame to the working state: the frame row is flushed (takes
the next id) and the driver telemetry rows are added. -/
def addFrame (sid : Nat) (dmap : List (String × Nat)) (db : DB) (f : InFrame) : DB :=
  let fid := db.nextId
  { db with
    nextId := fid + 1
    frames := db.frames ++ [mkFrameRow sid fid f]
    telemetry := db.telemetry ++ teleRowsOf dmap fid f }

/-- The batched frame loop of `save_race_telemetry` with `batch_size = 100`:
frames are added to the working state one by one; after every 100th frame,
and after the final partial batch, the working state is committed.  A frame
without `t` raises (malformed payload); `faultAt = some idx` simulates a
storage fault while persisting the frame with global index `idx`.  Any
exception returns `(none, committed)`: the rollback discards exactly the
uncommitted work, earlier committed batches remain.  With no frames the loop
body never runs, nothing is ever committed (the final `close` rolls the open
transaction back), yet the session id is still returned. -/
def saveFramesGo (sid : Nat) (dmap : List (String × Nat)) (faultAt : Option Nat) :
    List InFrame → Nat → DB → DB → Option Nat × DB
  | [], idx, committed, working =>
    if idx % 100 = 0 then (some sid, committed) else (some sid, working)
  | f :: rest, idx, committed, working =>
    if faultAt == some idx then (none, committed)
    else if f.t.isNone then (none, committed)
    else
      let working' := addFrame sid dmap working f
      if (idx + 1) % 100 = 0 then saveFramesGo sid dmap faultAt rest (idx + 1) working' working'
      else saveFramesGo sid dmap faultAt rest (idx + 1) committed working'

/-- The driver codes of the first frame (the race importer derives the
driver set from `frames[0]` only). -/
def firstFrameCodes (p : RacePayload) : List String :=
  match p.frames with
  | [] => []
  | f0 :: _ => f0.drivers.map Prod.fst

/-- `save_race_telemetry`.  Returns the stored or existing session id (or
`none` on failure) together with the resulting committed store. -/
def saveRaceTelemetry (db : DB) (y r : Int) (st : String) (info : SessionInfo)
    (p : RacePayload) (faultAt : Option Nat) : Option Nat × DB :=
  match findSession db y r st with
  | some s => (some s.id, db)
  | none =>
    let sid := db.nextId
    let db1 := { db with
                 nextId := sid + 1
                 sessions := db.sessions ++ [sessionRowOfRace sid y r st info p] }
    let dd := addDrivers sid p.driver_colors (firstFrameCodes p) db1 []
    let db3 := { dd.1 with track_statuses := dd.1.track_statuses ++ p.track_statuses.map (mkStatusRow sid) }
    saveFramesGo sid dd.2 faultAt p.frames 0 db db3

/-- A driver's exported sample dictionary: every key is always present, tyre
comes back as `float(tyre_compound)`. -/
structure OutSample where
  x : ℚ
  y : ℚ
  dist : Option ℚ
  rel_dist : Option ℚ
  position : Option Int
  lap : Option Int
  speed : Option ℚ
  gear : Option Int
  drs : Option Int
  throttle : Option ℚ
  brake : Option ℚ
  tyre : ℚ
deriving DecidableEq

/-- An exported frame: the `weather` key is present only when the frame's
stored `track_temp` is non-null. -/
structure OutFrame where
  t : ℚ
  lap : Option Int
  weather : Option Weather
  drivers : List (String × OutSample)
deriving DecidableEq

/-- The dictionary returned by `load_race_telemetry`. -/
structure LoadedRace where
  frames : List OutFrame
  driver_colors : List (String × (Int × Int × Int))
  track_statuses : List TrackStatusIn
  total_laps : Option Int
deriving DecidableEq

/-- `ORDER BY time` on frame rows. -/
def frameLe (a b : FrameRow) : Prop := a.time ≤ b.time

instance : DecidableRel frameLe := fun a b =>
  decidable_of_iff (a.time ≤ b.time) Iff.rfl

/-- `ORDER BY start_time` on track-status rows. -/
def statusLe (a b : TrackStatusRow) : Prop := a.start_time ≤ b.start_time

instance : DecidableRel statusLe := fun a b =>
  decidable_of_iff (a.start_time ≤ b.start_time) Iff.rfl

/-- The exported sample dictionary of a stored telemetry row. -/
def outSampleOf (t : TeleRow) : OutSample :=
  { x := t.x, y := t.y, dist := t.distance, rel_dist := t.relative_distance,
    position := t.position, lap := t.lap, speed := t.speed, gear := t.gear, drs := t.drs,
    throttle := t.throttle, brake := t.brake, tyre := (t.tyre_compound : ℚ) }

/-- The weather dictionary rebuilt on load: present only if `track_temp` was
recorded. -/
def weatherOf (fr : FrameRow) : Option Weather :=
  if fr.track_temp.isSome then
    some { track_temp := fr.track_temp, air_temp := fr.air_temp, humidity := fr.humidity,
           wind_speed := fr.wind_speed, wind_direction := fr.wind_direction,
           rain_state := fr.rain_state }
  else none

/-- Rebuilding one exported frame from its stored row: the frame's
telemetry points are the rows of `tele` with this frame id, each mapped back
to its driver code through the id-to-code mapping (points whose driver id
does not resolve are dropped, mirroring `if driver_code:`). -/
def loadFrameFun (tele : List TeleRow) (idToCode : List (Nat × String)) (fr : FrameRow) : OutFrame :=
  let pts := tele.filter (fun t => t.frame_id == fr.id)
  let dd := pts.filterMap (fun t =>
    (idToCode.lookup t.driver_id).map (fun code => (code, outSampleOf t)))
  { t := fr.time, lap := fr.lap, weather := weatherOf fr, drivers := dd }

/-- `load_race_telemetry`: find the session, rebuild colors, track statuses
ordered by start time, frames ordered by time, and per-frame driver samples
keyed through the driver id-to-code map. -/
def loadRaceTelemetry (db : DB) (y r : Int) (st : String) : Option LoadedRace :=
  match findSession db y r st with
  | none => none
  | some s =>
    let drs := db.drivers.filter (fun d => d.session_id == s.id)
    let colors := drs.map (fun d => (d.driver_code, (d.color_r, d.color_g, d.color_b)))
    let idToCode := drs.map (fun d => (d.id, d.driver_code))
    let statuses := (List.insertionSort statusLe
        (db.track_statuses.filter (fun ts => ts.session_id == s.id))).map
        (fun ts => ({ status := ts.status, start_time := ts.start_time,
                      end_time := ts.end_time } : TrackStatusIn))
    let frameRows := List.insertionSort frameLe (db.frames.filter (fun fr => fr.session_id == s.id))
    let outFrames := frameRows.map (loadFrameFun db.telemetry idToCode)
    some { frames := outFrames, driver_colors := colors, track_statuses := statuses,
           total_laps := s.total_laps }

/-- Parsing a plain decimal string the way Python `float()` does on lap-time
strings: optional sign, integer digits, optional fractional digits (at least
one digit overall).  Returns `none` when the string is not such a decimal
(Python would raise `ValueError`). -/
def parseDigits (cs : List Char) : Option Nat :=
  cs.foldl (fun acc c =>
    match acc with
    | none => none
    | some n => if c.isDigit then some (n * 10 + (c.toNat - 48)) else none) (some 0)

/-- Decimal-string parsing for `float(...)` (see `parseDigits`). -/
def floatOfString (s : String) : Option ℚ :=
  let cs := s.data
  let neg : Bool := match cs with
    | '-' :: _ => true
    | _ => false
  let body := match cs with
    | '-' :: rest => rest
    | _ => cs
  let intPart := body.takeWhile (fun c => c ≠ '.')
  let rest := body.dropWhile (fun c => c ≠ '.')
  let fracPart := match rest with
    | [] => []
    | _ :: fp => fp
  if rest ≠ [] ∧ fracPart.contains '.' then none
  else if intPart = [] ∧ fracPart = [] then none
  else
    match parseDigits intPart, parseDigits fracPart with
    | some i, some f =>
      let q : ℚ := (i : ℚ) + (f : ℚ) / ((10 : ℚ) ^ fracPart.length)
      some (if neg then -q else q)
    | _, _ => none

/-- Fractional digits of `num / den` (with `0 ≤ num < den`) by long
division, stopping at remainder zero; `fuel` bounds the digit count. -/
def fracDigits (fuel num den : Nat) : String :=
  match fuel with
  | 0 => ""
  | fuel' + 1 =>
    let d := (num * 10) / den
    let r := (num * 10) % den
    if r = 0 then toString d else toString d ++ fracDigits fuel' r den

/-- Decimal form of a nonnegative rational with a terminating decimal
expansion, in Python float `str()` shape (always a decimal point, minimal
digits, `"83.0"` for integers). -/
def nonnegRatStr (q : ℚ) : String :=
  let n := q.num.toNat
  let den := q.den
  let ip := n / den
  let rem := n % den
  if rem = 0 then toString ip ++ ".0"
  else toString ip ++ "." ++ fracDigits den rem den

/-- Python `str()` of a stored float value (model over `ℚ`). -/
def ratToPyStr (q : ℚ) : String :=
  if q < 0 then "-" ++ nonnegRatStr (-q) else nonnegRatStr q

/-- One entry of the qualifying payload's `results` list. -/
structure QResultIn where
  code : String
  full_name : Option String
  color : Option (Int × Int × Int)
  position : Int
  q1 : Option String
  q2 : Option String
  q3 : Option String
deriving DecidableEq

/-- One segment trace of the qualifying payload's `telemetry` mapping. -/
structure SegIn where
  frames : List QSample
  max_speed : Option ℚ
  min_speed : Option ℚ
  sector_times : Option SectorTimes
  compound : Option Int
  drs_zones : Option (List ℚ)
deriving DecidableEq

/-- The qualifying payload: `{results, telemetry}` with `telemetry` keyed by
driver code and segment name. -/
structure QualiPayload where
  results : List QResultIn
  telemetry : List (String × List (String × SegIn))
deriving DecidableEq

/-- The default (empty) segment dictionary `telemetry.get(segment, {})`. -/
def emptySegIn : SegIn := ⟨[], none, none, none, none, none⟩

/-- `float(result_data['Q1']) if result_data.get('Q1') else None`: a missing
or empty string stores null; an unparsable string raises (outer `none`);
otherwise the parsed float is stored. -/
def qTimeParse : Option String → Option (Option ℚ)
  | none => some none
  | some s => if s = "" then some none else (floatOfString s).map some

/-- The fixed segment iteration order of the qualifying importer. -/
def segNames : List String := ["Q1", "Q2", "Q3"]

/-- The `QualifyingTelemetry` row stored for one non-empty segment trace. -/
def mkQTeleRow (rid : Nat) (seg : String) (sd : SegIn) : QualiTeleRow :=
  let st := sd.sector_times.getD ⟨none, none, none⟩
  { result_id := rid, segment := seg, frames_json := sd.frames, max_speed := sd.max_speed,
    min_speed := sd.min_speed, sector1_time := st.sector1, sector2_time := st.sector2,
    sector3_time := st.sector3, compound := sd.compound,
    drs_zones_json := sd.drs_zones.getD [] }

/-- The segment loop of the qualifying importer: one telemetry row per
segment with a non-empty sample list (`if frames:`). -/
def segRowsFor (rid : Nat) (segs : List (String × SegIn)) : List QualiTeleRow :=
  segNames.filterMap (fun seg =>
    let sd := (segs.lookup seg).getD emptySegIn
    if sd.frames = [] then none else some (mkQTeleRow rid seg sd))

/-- The per-result loop of `save_qualifying_telemetry`: one flushed `Driver`
row, one flushed `QualifyingResult` row and the segment telemetry rows per
result entry; an unparsable lap time raises (`none`). -/
def saveQualiGo (sid : Nat) (tele : List (String × List (String × SegIn))) :
    List QResultIn → DB → Option DB
  | [], db => some db
  | res :: rest, db =>
    match qTimeParse res.q1, qTimeParse res.q2, qTimeParse res.q3 with
    | some t1, some t2, some t3 =>
      let did := db.nextId
      let c := res.color.getD defaultColor
      let drow : DriverRow :=
        { id := did, session_id := sid, driver_code := res.code, full_name := res.full_name,
          color_r := c.1, color_g := c.2.1, color_b := c.2.2 }
      let rid := did + 1
      let qrow : QualiResultRow :=
        { id := rid, session_id := sid, driver_id := did, position := res.position,
          q1_time := t1, q2_time := t2, q3_time := t3 }
      saveQualiGo sid tele rest
        { db with
          nextId := rid + 1
          drivers := db.drivers ++ [drow]
          quali_results := db.quali_results ++ [qrow]
          quali_telemetry := db.quali_telemetry ++ segRowsFor rid ((tele.lookup res.code).getD []) }
    | _, _, _ => none

/-- The session row written by `save_qualifying_telemetry` (no total laps,
no circuit rotation). -/
def sessionRowOfQuali (sid : Nat) (y r : Int) (st : String) (info : SessionInfo) : SessionRow :=
  { id := sid, year := y, round_number := r, session_type := st,
    event_name := info.event_name.getD "", circuit_name := info.circuit_name.getD "",
    country := info.country.getD "", event_date := info.date.getD "",
    total_laps := none, circuit_rotation := none }

/-- `save_qualifying_telemetry`: existence check, one session row, the
per-result loop, then a single commit; any failure rolls the whole import
back (the committed store is returned unchanged). -/
def saveQualifyingTelemetry (db : DB) (y r : Int) (st : String) (info : SessionInfo)
    (p : QualiPayload) : Option Nat × DB :=
  match findSession db y r st with
  | some s => (some s.id, db)
  | none =>
    let sid := db.nextId
    let db1 := { db with
                 nextId := sid + 1
                 sessions := db.sessions ++ [sessionRowOfQuali sid y r st info] }
    match saveQualiGo sid p.telemetry p.results db1 with
    | some db2 => (some sid, db2)
    | none => (none, db)

/-- One entry of the exported qualifying `results` list. -/
structure OutQualiResult where
  code : String
  full_name : Option String
  position : Int
  color : Int × Int × Int
  q1 : Option String
  q2 : Option String
  q3 : Option String
deriving DecidableEq

/-- One exported segment dictionary. -/
structure SegOut where
  frames : List QSample
  track_statuses : List TrackStatusIn
  drs_zones : List ℚ
  max_speed : Option ℚ
  min_speed : Option ℚ
  sector_times : SectorTimes
  compound : Option Int
deriving DecidableEq

/-- The exported per-driver telemetry dictionary: the driver's full name
plus one entry per stored segment. -/
structure DriverQualiTele where
  full_name : Option String
  segments : List (String × SegOut)
deriving DecidableEq

/-- The dictionary returned by `load_qualifying_telemetry`. -/
structure LoadedQuali where
  results : List OutQualiResult
  telemetry : List (String × DriverQualiTele)
  max_speed : ℚ
  min_speed : ℚ
deriving DecidableEq

/-- `str(result.q1_time) if result.q1_time else None`: both null and the
float `0.0` are falsy and export as absent. -/
def pyTimeStr : Option ℚ → Option String
  | none => none
  | some q => if q = 0 then none else some (ratToPyStr q)

/-- The running-maximum update
`if seg.max_speed and seg.max_speed > max_speed`: a null or `0.0` stored
value is falsy and skipped. -/
def updMax (mx : ℚ) : Option ℚ → ℚ
  | some m => if m ≠ 0 ∧ mx < m then m else mx
  | none => mx

/-- The running-minimum update
`if seg.min_speed and (seg.min_speed < min_speed or min_speed == 0.0)`:
a null or `0.0` stored value is falsy and skipped; the first nonzero value
observed always replaces the initial `0.0`. -/
def updMin (mn : ℚ) : Option ℚ → ℚ
  | some m => if m ≠ 0 ∧ (m < mn ∨ mn = 0) then m else mn
  | none => mn

/-- The exported segment dictionary of a stored row
(`drs_zones_json or []`). -/
def segOutOf (row : QualiTeleRow) : SegOut :=
  { frames := row.frames_json, track_statuses := [],
    drs_zones := if row.drs_zones_json = [] then [] else row.drs_zones_json,
    max_speed := row.max_speed, min_speed := row.min_speed,
    sector_times := { sector1 := row.sector1_time, sector2 := row.sector2_time,
                      sector3 := row.sector3_time },
    compound := row.compound }

/-- The per-result loop of `load_qualifying_telemetry`: resolve the driver
(`result.driver`; a dangling foreign key would raise), build the result and
telemetry dictionaries and update the running session-wide max/min speed
over the result's stored segment rows. -/
def qualiLoadGo (db : DB) :
    List QualiResultRow → List OutQualiResult → List (String × DriverQualiTele) → ℚ → ℚ →
    Option (List OutQualiResult × List (String × DriverQualiTele) × ℚ × ℚ)
  | [], res, tel, mx, mn => some (res, tel, mx, mn)
  | qr :: rest, res, tel, mx, mn =>
    match db.drivers.find? (fun d => d.id == qr.driver_id) with
    | none => none
    | some driver =>
      let r : OutQualiResult :=
        { code := driver.driver_code, full_name := driver.full_name, position := qr.position,
          color := (driver.color_r, driver.color_g, driver.color_b),
          q1 := pyTimeStr qr.q1_time, q2 := pyTimeStr qr.q2_time, q3 := pyTimeStr qr.q3_time }
      let rows := db.quali_telemetry.filter (fun t => t.result_id == qr.id)
      let segs := rows.map (fun row => (row.segment, segOutOf row))
      qualiLoadGo db rest (res ++ [r])
        (tel ++ [(driver.driver_code, ⟨driver.full_name, segs⟩)])
        (rows.foldl (fun a row => updMax a row.max_speed) mx)
        (rows.foldl (fun a row => updMin a row.min_speed) mn)

/-- `ORDER BY position` on qualifying result rows. -/
def resultLe (a b : QualiResultRow) : Prop := a.position ≤ b.position

instance : DecidableRel resultLe := fun a b =>
  decidable_of_iff (a.position ≤ b.position) Iff.rfl

/-- `load_qualifying_telemetry`: find the session, walk its results in
position order, return results, telemetry and the session-wide max/min
speeds (both seeded at `0.0`). -/
def loadQualifyingTelemetry (db : DB) (y r : Int) (st : String) : Option LoadedQuali :=
  match findSession db y r st with
  | none => none
  | some s =>
    let qrs := List.insertionSort resultLe
      (db.quali_results.filter (fun q => q.session_id == s.id))
    match qualiLoadGo db qrs [] [] 0 0 with
    | none => none
    | some (res, tel, mx, mn) =>
      some { results := res, telemetry := tel, max_speed := mx, min_speed := mn }

/-- One entry of the session catalog. -/
structure CatalogEntry where
  year : Int
  round : Int
  session_type : String
  event_name : String
  country : String
  date : String
deriving DecidableEq

/-- `ORDER BY year DESC, round_number DESC`. -/
def catalogLe (a b : SessionRow) : Prop :=
  b.year < a.year ∨ (a.year = b.year ∧ b.round_number ≤ a.round_number)

instance : DecidableRel catalogLe := fun a b =>
  decidable_of_iff (b.year < a.year ∨ (a.year = b.year ∧ b.round_number ≤ a.round_number)) Iff.rfl

/-- `get_all_sessions`: every stored session summarized, most recent first. -/
def getAllSessions (db : DB) : List CatalogEntry :=
  (List.insertionSort catalogLe db.sessions).map (fun s =>
    { year := s.year, round := s.round_number, session_type := s.session_type,
      event_name := s.event_name, country := s.country, date := s.event_date })

/-- Boolean adjacent-pairs check: the keys of `l` are non-decreasing. -/
def chainLeBy (key : α → ℚ) : List α → Bool
  | [] => true
  | [_] => true
  | a :: b :: rest => decide (key a ≤ key b) && chainLeBy key (b :: rest)

/-- Boolean adjacent-pairs check: the keys of `l` are strictly increasing. -/
def chainLtQ : List ℚ → Bool
  | [] => true
  | [_] => true
  | a :: b :: rest => decide (a < b) && chainLtQ (b :: rest)

/-- Per-frame validity for the round trip: the required timestamp is
present, a supplied weather snapshot records its track temperature, and the
frame's driver codes all occur in the first frame (the only drivers that
the importer persists). -/
def frameOk (codes : List String) (f : InFrame) : Bool :=
  f.t.isSome &&
  (match f.weather with
   | none => true
   | some w => w.track_temp.isSome) &&
  f.drivers.all (fun cs => codes.contains cs.1)

/-- A valid race telemetry payload: at least one frame, distinct driver
codes in the first frame, every frame `frameOk`, frame times non-decreasing
(the spec's monotonicity invariant) and track statuses supplied in start
order. -/
def validRacePayload (p : RacePayload) : Bool :=
  match p.frames with
  | [] => false
  | f0 :: _ =>
    let codes := f0.drivers.map Prod.fst
    decide codes.Nodup &&
    p.frames.all (frameOk codes) &&
    chainLeBy (fun f => f.t.getD 0) p.frames &&
    chainLeBy (fun ts => ts.start_time) p.track_statuses

/-- The sample dictionary the exporter is expected to return for an input
sample: identical fields, except that the tyre compound comes back
as the float of the stored integer (truncation of the supplied value,
`0` when it was absent). -/
def expectedOutSample (s : DriverSample) : OutSample :=
  { x := s.x, y := s.y, dist := s.dist, rel_dist := s.rel_dist, position := s.position,
    lap := s.lap, speed := s.speed, gear := s.gear, drs := s.drs, throttle := s.throttle,
    brake := s.brake, tyre := (pyInt (s.tyre.getD 0) : ℚ) }

/-- The frame dictionary the exporter is expected to return for an imported
frame. -/
def expectedOutFrame (f : InFrame) : OutFrame :=
  { t := f.t.getD 0, lap := f.lap, weather := f.weather,
    drivers := f.drivers.map (fun cs => (cs.1, expectedOutSample cs.2)) }

/-- The color mapping the exporter is expected to return: one entry per
first-frame driver, with the supplied color or the default. -/
def expectedColors (p : RacePayload) : List (String × (Int × Int × Int)) :=
  (firstFrameCodes p).map (fun c => (c, (p.driver_colors.lookup c).getD defaultColor))

/-- Specification-side aggregate: the maximum of the positive values among
the stored segment max speeds (`0` when there are none). -/
def specMaxPos : List (Option ℚ) → ℚ
  | [] => 0
  | none :: xs => specMaxPos xs
  | some m :: xs => if 0 < m then max m (specMaxPos xs) else specMaxPos xs

/-- Specification-side aggregate: the minimum of the nonzero values among
the stored segment min speeds (`none` when there are none). -/
def specMinNZ : List (Option ℚ) → Option ℚ
  | [] => none
  | none :: xs => specMinNZ xs
  | some m :: xs =>
    if m = 0 then specMinNZ xs
    else
      match specMinNZ xs with
      | none => some m
      | some n => some (min m n)

/-- Specification-side aggregate for the claim as stated: the true minimum
of all values in the list (ignoring nulls). -/
def minimumAll : List (Option ℚ) → Option ℚ
  | [] => none
  | none :: xs => minimumAll xs
  | some m :: xs =>
    match minimumAll xs with
    | none => some m
    | some n => some (min m n)

/-- The stored segment rows reachable from a list of qualifying results, in
traversal order of the exporter. -/
def segRowsOfResults (db : DB) (qrs : List QualiResultRow) : List QualiTeleRow :=
  qrs.flatMap (fun qr => db.quali_telemetry.filter (fun t => t.result_id == qr.id))

/-- The session's qualifying result rows in export (position) order. -/
def sortedResultsOf (db : DB) (sid : Nat) : List QualiResultRow :=
  List.insertionSort resultLe (db.quali_results.filter (fun q => q.session_id == sid))

/-- The driver rows the race importer creates for the first-frame codes,
with consecutive ids from `did`. -/
def driverRowsFrom (sid : Nat) (colors : List (String × (Int × Int × Int))) :
    Nat → List String → List DriverRow
  | _, [] => []
  | did, c :: cs => mkDriverRow sid did c colors :: driverRowsFrom sid colors (did + 1) cs

/-- The `driver_map` built alongside, code to assigned id. -/
def dmapFrom : Nat → List String → List (String × Nat)
  | _, [] => []
  | did, c :: cs => (c, did) :: dmapFrom (did + 1) cs

/-- The frame rows written for a frame list, with consecutive ids from
`fid`. -/
def frameRowsFrom (sid : Nat) : Nat → List InFrame → List FrameRow
  | _, [] => []
  | fid, f :: fs => mkFrameRow sid fid f :: frameRowsFrom sid (fid + 1) fs

/-- The driver telemetry rows written for a frame list. -/
def teleRowsFrom (dmap : List (String × Nat)) : Nat → List InFrame → List TeleRow
  | _, [] => []
  | fid, f :: fs => teleRowsOf dmap fid f ++ teleRowsFrom dmap (fid + 1) fs

/-- The committed store after a successful race import of a fresh key. -/
def mkRaceDB (db : DB) (y r : Int) (st : String) (info : SessionInfo) (p : RacePayload) : DB :=
  let sid := db.nextId
  let codes := firstFrameCodes p
  let nid := sid + 1 + codes.length
  { nextId := nid + p.frames.length,
    sessions := db.sessions ++ [sessionRowOfRace sid y r st info p],
    drivers := db.drivers ++ driverRowsFrom sid p.driver_colors (sid + 1) codes,
    frames := db.frames ++ frameRowsFrom sid nid p.frames,
    telemetry := db.telemetry ++ teleRowsFrom (dmapFrom (sid + 1) codes) nid p.frames,
    track_statuses := db.track_statuses ++ p.track_statuses.map (mkStatusRow sid),
    quali_results := db.quali_results,
    quali_telemetry := db.quali_telemetry }

theorem addDrivers_eq (sid : Nat) (colors : List (String × (Int × Int × Int))) :
    ∀ (codes : List String) (db : DB) (dmap : List (String × Nat)),
    addDrivers sid colors codes db dmap =
      ({ db with nextId := db.nextId + codes.length,
                 drivers := db.drivers ++ driverRowsFrom sid colors db.nextId codes },
       dmap ++ dmapFrom db.nextId codes)
  | [], db, dmap => by
    obtain ⟨n, ss, ds, fs, ts, sts, qs, qts⟩ := db
    simp [addDrivers, driverRowsFrom, dmapFrom]
  | c :: cs, db, dmap => by
    obtain ⟨n, ss, ds, fs, ts, sts, qs, qts⟩ := db
    rw [addDrivers, addDrivers_eq sid colors cs]
    simp only [List.length_cons]
    rw [show n + 1 + cs.length = n + (cs.length + 1) from by omega]
    simp [driverRowsFrom, dmapFrom, List.append_assoc]

theorem foldl_addFrame_eq (sid : Nat) (dmap : List (String × Nat)) :
    ∀ (fs : List InFrame) (db : DB),
    fs.foldl (addFrame sid dmap) db =
      { db with nextId := db.nextId + fs.length,
                frames := db.frames ++ frameRowsFrom sid db.nextId fs,
                telemetry := db.telemetry ++ teleRowsFrom dmap db.nextId fs }
  | [], db => by
    obtain ⟨n, ss, ds, fs', ts, sts, qs, qts⟩ := db
    simp [frameRowsFrom, teleRowsFrom]
  | f :: fs, db => by
    obtain ⟨n, ss, ds, fs', ts, sts, qs, qts⟩ := db
    rw [List.foldl_cons, foldl_addFrame_eq sid dmap fs]
    simp only [List.length_cons, addFrame]
    rw [show n + 1 + fs.length = n + (fs.length + 1) from by omega]
    simp [frameRowsFrom, teleRowsFrom, List.append_assoc]

theorem saveFramesGo_ok (sid : Nat) (dmap : List (String × Nat)) :
    ∀ (fs : List InFrame) (idx : Nat) (committed working : DB),
    fs ≠ [] → (∀ f ∈ fs, f.t.isSome) →
    saveFramesGo sid dmap none fs idx committed working =
      (some sid, fs.foldl (addFrame sid dmap) working)
  | [], _, _, _, hne, _ => absurd rfl hne
  | f :: fs, idx, committed, working, _, hT => by
    have ht : f.t.isNone = false := by
      cases hf : f.t with
      | none =>
        have := hT f (List.mem_cons_self f fs)
        rw [hf] at this
        simp at this
      | some v => rfl
    rw [saveFramesGo]
    rw [if_neg (by simp : ¬ (((none : Option Nat) == some idx) = true))]
    rw [if_neg (by simp [ht] : ¬ (f.t.isNone = true))]
    cases fs with
    | nil =>
      by_cases hb : (idx + 1) % 100 = 0
      · rw [if_pos hb, saveFramesGo, if_pos hb]
        simp [List.foldl]
      · rw [if_neg hb, saveFramesGo, if_neg hb]
        simp [List.foldl]
    | cons g gs =>
      have hT' : ∀ x ∈ g :: gs, x.t.isSome := fun x hx => hT x (List.mem_cons_of_mem f hx)
      by_cases hb : (idx + 1) % 100 = 0
      · rw [if_pos hb, saveFramesGo_ok sid dmap (g :: gs) (idx + 1) _ _ (by simp) hT']
        simp [List.foldl_cons]
      · rw [if_neg hb, saveFramesGo_ok sid dmap (g :: gs) (idx + 1) _ _ (by simp) hT']
        simp [List.foldl_cons]

theorem saveRace_eq (db : DB) (y r : Int) (st : String) (info : SessionInfo) (p : RacePayload)
    (hfresh : findSession db y r st = none) (hne : p.frames ≠ [])
    (hT : ∀ f ∈ p.frames, f.t.isSome) :
    saveRaceTelemetry db y r st info p none = (some db.nextId, mkRaceDB db y r st info p) := by
  simp only [saveRaceTelemetry, hfresh, addDrivers_eq]
  rw [saveFramesGo_ok _ _ _ _ _ _ hne hT, foldl_addFrame_eq]
  obtain ⟨n, ss, ds, fs', ts, sts, qs, qts⟩ := db
  simp only [mkRaceDB, Prod.mk.injEq, DB.mk.injEq, List.nil_append]

theorem filter_none_of {α} (p : α → Bool) :
    ∀ (l : List α), (∀ x ∈ l, p x = false) → l.filter p = []
  | [], _ => rfl
  | x :: xs, h => by
    rw [List.filter_cons, h x (List.mem_cons_self x xs)]
    simp only [Bool.false_eq_true, if_false]
    exact filter_none_of p xs (fun y hy => h y (List.mem_cons_of_mem x hy))

theorem filter_all_of {α} (p : α → Bool) :
    ∀ (l : List α), (∀ x ∈ l, p x = true) → l.filter p = l
  | [], _ => rfl
  | x :: xs, h => by
    have hx := h x (List.mem_cons_self x xs)
    rw [List.filter_cons, if_pos hx,
      filter_all_of p xs (fun y hy => h y (List.mem_cons_of_mem x hy))]

theorem find?_append_none {α} (p : α → Bool) :
    ∀ (l l' : List α), l.find? p = none → (l ++ l').find? p = l'.find? p
  | [], _, _ => by simp
  | x :: xs, l', h => by
    rw [List.find?_cons] at h
    rw [List.cons_append, List.find?_cons]
    cases hx : p x with
    | true => rw [hx] at h; simp at h
    | false =>
      rw [hx] at h
      simp only [Bool.false_eq_true, if_false] at h ⊢
      exact find?_append_none p xs l' h

theorem lookup_none_of {β} (c : String) :
    ∀ (l : List (String × β)), (∀ e ∈ l, e.1 ≠ c) → l.lookup c = none
  | [], _ => rfl
  | (k, b) :: es, h => by
    rw [List.lookup]
    have hk : (c == k) = false := by
      have := h (k, b) (List.mem_cons_self (k, b) es)
      simp only [beq_eq_false_iff_ne, ne_eq]
      exact fun hc => this hc.symm
    rw [hk]
    exact lookup_none_of c es (fun x hx => h x (List.mem_cons_of_mem (k, b) hx))

theorem lookup_map_key {β} (g : String → β) (c : String) :
    ∀ (codes : List String), c ∈ codes →
    (codes.map (fun x => (x, g x))).lookup c = some (g c)
  | [], h => absurd h (List.not_mem_nil c)
  | x :: xs, h => by
    rw [List.map_cons, List.lookup]
    by_cases hx : c = x
    · subst hx
      simp
    · have : (c == x) = false := by simp [hx]
      rw [this]
      exact lookup_map_key g c xs ((List.mem_cons.mp h).resolve_left hx)

theorem wf_facts (db : DB) (h : db.wf = true) :
    (∀ s ∈ db.sessions, s.id < db.nextId) ∧
    (∀ d ∈ db.drivers, d.id < db.nextId ∧ d.session_id < db.nextId) ∧
    (∀ f ∈ db.frames, f.id < db.nextId ∧ f.session_id < db.nextId) ∧
    (∀ t ∈ db.telemetry, t.frame_id < db.nextId ∧ t.driver_id < db.nextId) ∧
    (∀ ts ∈ db.track_statuses, ts.session_id < db.nextId) ∧
    (∀ q ∈ db.quali_results, q.id < db.nextId ∧ q.session_id < db.nextId ∧ q.driver_id < db.nextId) ∧
    (∀ qt ∈ db.quali_telemetry, qt.result_id < db.nextId) := by
  simp only [DB.wf, Bool.and_eq_true, List.all_eq_true, decide_eq_true_eq] at h
  obtain ⟨⟨⟨⟨⟨⟨h1, h2⟩, h3⟩, h4⟩, h5⟩, h6⟩, h7⟩ := h
  exact ⟨h1, fun d hd => (h2 d hd), fun f hf => (h3 f hf), fun t ht => (h4 t ht), h5,
    fun q hq => ⟨(h6 q hq).1.1, (h6 q hq).1.2, (h6 q hq).2⟩, h7⟩

theorem driverRowsFrom_fields (sid : Nat) (colors : List (String × (Int × Int × Int))) :
    ∀ (codes : List String) (did : Nat) (x : DriverRow),
    x ∈ driverRowsFrom sid colors did codes → x.session_id = sid ∧ did ≤ x.id
  | [], _, x, hx => absurd hx (List.not_mem_nil x)
  | c :: cs, did, x, hx => by
    rw [driverRowsFrom] at hx
    rcases List.mem_cons.mp hx with h | h
    · subst h
      exact ⟨rfl, Nat.le_refl _⟩
    · have := driverRowsFrom_fields sid colors cs (did + 1) x h
      exact ⟨this.1, Nat.le_of_succ_le this.2⟩

theorem driverRowsFrom_colors (sid : Nat) (colors : List (String × (Int × Int × Int))) :
    ∀ (codes : List String) (did : Nat),
    (driverRowsFrom sid colors did codes).map (fun d => (d.driver_code, (d.color_r, d.color_g, d.color_b)))
      = codes.map (fun c => (c, (colors.lookup c).getD defaultColor))
  | [], _ => rfl
  | c :: cs, did => by
    rw [driverRowsFrom, List.map_cons, List.map_cons,
      driverRowsFrom_colors sid colors cs (did + 1)]
    rfl

theorem driverRowsFrom_codes (sid : Nat) (colors : List (String × (Int × Int × Int))) :
    ∀ (codes : List String) (did : Nat),
    (driverRowsFrom sid colors did codes).map (fun d => d.driver_code) = codes
  | [], _ => rfl
  | c :: cs, did => by
    rw [driverRowsFrom, List.map_cons, driverRowsFrom_codes sid colors cs (did + 1)]
    rfl

theorem frameRowsFrom_fields (sid : Nat) :
    ∀ (fs : List InFrame) (fid : Nat) (x : FrameRow), x ∈ frameRowsFrom sid fid fs →
    x.session_id = sid ∧ fid ≤ x.id ∧ ∃ f ∈ fs, x.time = f.t.getD 0
  | [], _, x, hx => absurd hx (List.not_mem_nil x)
  | f :: fs, fid, x, hx => by
    rw [frameRowsFrom] at hx
    rcases List.mem_cons.mp hx with h | h
    · subst h
      exact ⟨rfl, Nat.le_refl _, f, List.mem_cons_self f fs, rfl⟩
    · obtain ⟨h1, h2, g, hg, h3⟩ := frameRowsFrom_fields sid fs (fid + 1) x h
      exact ⟨h1, Nat.le_of_succ_le h2, g, List.mem_cons_of_mem f hg, h3⟩

theorem frameRowsFrom_length (sid : Nat) :
    ∀ (fs : List InFrame) (fid : Nat), (frameRowsFrom sid fid fs).length = fs.length
  | [], _ => rfl
  | f :: fs, fid => by
    rw [frameRowsFrom, List.length_cons, List.length_cons, frameRowsFrom_length sid fs (fid + 1)]

theorem teleRowsOf_frame_id (dmap : List (String × Nat)) (fid : Nat) (f : InFrame) :
    ∀ x ∈ teleRowsOf dmap fid f, x.frame_id = fid := by
  intro x hx
  rw [teleRowsOf] at hx
  obtain ⟨cs, _, hcs⟩ := List.mem_filterMap.mp hx
  obtain ⟨did, _, hdid⟩ := Option.map_eq_some'.mp hcs
  rw [← hdid]
  rfl

theorem teleRowsFrom_frame_id (dmap : List (String × Nat)) :
    ∀ (fs : List InFrame) (fid : Nat) (x : TeleRow), x ∈ teleRowsFrom dmap fid fs →
    fid ≤ x.frame_id ∧ x.frame_id < fid + fs.length
  | [], _, x, hx => absurd hx (List.not_mem_nil x)
  | f :: fs, fid, x, hx => by
    rw [teleRowsFrom] at hx
    rcases List.mem_append.mp hx with h | h
    · rw [teleRowsOf_frame_id dmap fid f x h]
      simp only [List.length_cons]
      omega
    · obtain ⟨h1, h2⟩ := teleRowsFrom_frame_id dmap fs (fid + 1) x h
      simp only [List.length_cons]
      omega

theorem teleRowsFrom_filter (dmap : List (String × Nat)) :
    ∀ (fs : List InFrame) (fid j : Nat) (hj : j < fs.length),
    (teleRowsFrom dmap fid fs).filter (fun t => t.frame_id == fid + j)
      = teleRowsOf dmap (fid + j) (fs.get ⟨j, hj⟩)
  | [], _, j, hj => absurd hj (Nat.not_lt_zero j)
  | f :: fs, fid, 0, hj => by
    rw [teleRowsFrom, List.filter_append]
    have h1 : (teleRowsOf dmap fid f).filter (fun t => t.frame_id == fid + 0) = teleRowsOf dmap fid f := by
      apply filter_all_of
      intro x hx
      rw [teleRowsOf_frame_id dmap fid f x hx]
      simp
    have h2 : (teleRowsFrom dmap (fid + 1) fs).filter (fun t => t.frame_id == fid + 0) = [] := by
      apply filter_none_of
      intro x hx
      obtain ⟨ha, _⟩ := teleRowsFrom_frame_id dmap fs (fid + 1) x hx
      simp only [beq_eq_false_iff_ne, ne_eq]
      omega
    rw [h1, h2, List.append_nil]
    rfl
  | f :: fs, fid, j + 1, hj => by
    rw [teleRowsFrom, List.filter_append]
    have h1 : (teleRowsOf dmap fid f).filter (fun t => t.frame_id == fid + (j + 1)) = [] := by
      apply filter_none_of
      intro x hx
      rw [teleRowsOf_frame_id dmap fid f x hx]
      simp only [beq_eq_false_iff_ne, ne_eq]
      omega
    have h2 := teleRowsFrom_filter dmap fs (fid + 1) j (Nat.lt_of_succ_lt_succ hj)
    rw [h1, List.nil_append, show fid + (j + 1) = fid + 1 + j from by omega, h2]
    rfl

theorem chainLeBy_cons {α} (key : α → ℚ) :
    ∀ (a : α) (l : List α), chainLeBy key (a :: l) = true →
    chainLeBy key l = true ∧ ∀ b ∈ l, key a ≤ key b
  | _, [], _ => ⟨rfl, fun b hb => absurd hb (List.not_mem_nil b)⟩
  | a, b :: l, h => by
    rw [chainLeBy, Bool.and_eq_true, decide_eq_true_eq] at h
    obtain ⟨hab, hl⟩ := h
    have ih := chainLeBy_cons key b l hl
    refine ⟨hl, fun c hc => ?_⟩
    rcases List.mem_cons.mp hc with rfl | hc
    · exact hab
    · exact le_trans hab (ih.2 c hc)

theorem chainLeBy_pairwise {α} (key : α → ℚ) :
    ∀ (l : List α), chainLeBy key l = true → l.Pairwise (fun a b => key a ≤ key b)
  | [], _ => List.Pairwise.nil
  | a :: l, h => by
    obtain ⟨hl, hall⟩ := chainLeBy_cons key a l h
    exact List.Pairwise.cons hall (chainLeBy_pairwise key l hl)

theorem frameRowsFrom_pairwise (sid : Nat) :
    ∀ (fs : List InFrame) (fid : Nat),
    fs.Pairwise (fun f g => f.t.getD 0 ≤ g.t.getD 0) →
    (frameRowsFrom sid fid fs).Pairwise frameLe
  | [], _, _ => List.Pairwise.nil
  | f :: fs, fid, h => by
    rw [frameRowsFrom]
    obtain ⟨hall, htail⟩ := List.pairwise_cons.mp h
    refine List.Pairwise.cons ?_ (frameRowsFrom_pairwise sid fs (fid + 1) htail)
    intro x hx
    obtain ⟨-, -, g, hg, hgt⟩ := frameRowsFrom_fields sid fs (fid + 1) x hx
    show (mkFrameRow sid fid f).time ≤ x.time
    rw [hgt]
    exact hall g hg

theorem dmap_lookup (sid : Nat) (colors : List (String × (Int × Int × Int))) :
    ∀ (codes : List String) (did : Nat) (c : String),
    codes.Nodup → c ∈ codes →
    ∃ d, did ≤ d ∧ (dmapFrom did codes).lookup c = some d ∧
      ((driverRowsFrom sid colors did codes).map (fun dr => (dr.id, dr.driver_code))).lookup d
        = some c
  | [], _, c, _, hc => absurd hc (List.not_mem_nil c)
  | x :: xs, did, c, hnd, hc => by
    rw [dmapFrom, driverRowsFrom, List.map_cons]
    by_cases hcx : c = x
    · subst hcx
      refine ⟨did, Nat.le_refl _, ?_, ?_⟩
      · rw [List.lookup]
        simp
      · rw [List.lookup]
        simp [mkDriverRow]
    · have hcxs : c ∈ xs := (List.mem_cons.mp hc).resolve_left hcx
      have hnd' : xs.Nodup := (List.nodup_cons.mp hnd).2
      obtain ⟨d, hdle, hdm, hdc⟩ := dmap_lookup sid colors xs (did + 1) c hnd' hcxs
      refine ⟨d, by omega, ?_, ?_⟩
      · rw [List.lookup]
        have : (c == x) = false := by simp [hcx]
        rw [this]
        exact hdm
      · rw [List.lookup]
        have : (d == (mkDriverRow sid did x colors).id) = false := by
          simp only [mkDriverRow, beq_eq_false_iff_ne, ne_eq]
          omega
        rw [this]
        exact hdc

theorem idToCode_values (sid : Nat) (colors : List (String × (Int × Int × Int))) :
    ∀ (codes : List String) (did i : Nat) (c : String),
    ((driverRowsFrom sid colors did codes).map (fun dr => (dr.id, dr.driver_code))).lookup i
      = some c → c ∈ codes
  | [], _, _, c, h => by simp [driverRowsFrom] at h
  | x :: xs, did, i, c, h => by
    rw [driverRowsFrom, List.map_cons, List.lookup] at h
    by_cases hi : (i == (mkDriverRow sid did x colors).id) = true
    · rw [hi] at h
      have : c = x := by
        have := h
        simp only [mkDriverRow, Option.some.injEq] at this
        exact this.symm
      exact this ▸ List.mem_cons_self x xs
    · rw [Bool.not_eq_true] at hi
      rw [hi] at h
      exact List.mem_cons_of_mem x (idToCode_values sid colors xs (did + 1) i c h)

theorem teleRows_filterMap (fid : Nat) (dmap : List (String × Nat))
    (idToCode : List (Nat × String)) :
    ∀ (l : List (String × DriverSample)),
    (∀ cs ∈ l, ∃ d, dmap.lookup cs.1 = some d ∧ idToCode.lookup d = some cs.1) →
    ((l.filterMap (fun cs => (dmap.lookup cs.1).map (fun did => mkTeleRow fid did cs.2))).filterMap
      (fun t => (idToCode.lookup t.driver_id).map (fun code => (code, outSampleOf t))))
      = l.map (fun cs => (cs.1, expectedOutSample cs.2))
  | [], _ => rfl
  | cs :: l, h => by
    obtain ⟨d, hd1, hd2⟩ := h cs (List.mem_cons_self cs l)
    rw [List.filterMap_cons, hd1]
    simp only [Option.map_some']
    rw [List.filterMap_cons]
    have : (mkTeleRow fid d cs.2).driver_id = d := rfl
    rw [this, hd2]
    simp only [Option.map_some']
    rw [teleRows_filterMap fid dmap idToCode l
      (fun x hx => h x (List.mem_cons_of_mem cs hx))]
    rfl

theorem weatherOf_mkFrameRow (sid fid : Nat) (f : InFrame)
    (hw : ∀ w, f.weather = some w → w.track_temp.isSome) :
    weatherOf (mkFrameRow sid fid f) = f.weather := by
  cases hfw : f.weather with
  | none =>
    rw [weatherOf]
    have : (mkFrameRow sid fid f).track_temp = none := by
      rw [mkFrameRow, hfw]
      rfl
    rw [this]
    rfl
  | some w =>
    rw [weatherOf]
    have h1 : (mkFrameRow sid fid f).track_temp = w.track_temp := by
      rw [mkFrameRow, hfw]
      rfl
    rw [h1, if_pos (hw w hfw)]
    rw [mkFrameRow, hfw]
    rfl

theorem map_loadFrame (tele : List TeleRow) (idToCode : List (Nat × String))
    (dmap : List (String × Nat)) (sid : Nat) :
    ∀ (fs : List InFrame) (fid : Nat),
    (∀ (j : Nat) (hj : j < fs.length),
      tele.filter (fun t => t.frame_id == fid + j) = teleRowsOf dmap (fid + j) (fs.get ⟨j, hj⟩)) →
    (∀ f ∈ fs, (∀ w, f.weather = some w → w.track_temp.isSome) ∧
      ∀ cs ∈ f.drivers, ∃ d, dmap.lookup cs.1 = some d ∧ idToCode.lookup d = some cs.1) →
    (frameRowsFrom sid fid fs).map (loadFrameFun tele idToCode) = fs.map expectedOutFrame
  | [], _, _, _ => rfl
  | f :: fs, fid, hfil, hok => by
    rw [frameRowsFrom, List.map_cons, List.map_cons]
    have hhead : loadFrameFun tele idToCode (mkFrameRow sid fid f) = expectedOutFrame f := by
      obtain ⟨hw, hdr⟩ := hok f (List.mem_cons_self f fs)
      have hf0 : tele.filter (fun t => t.frame_id == (mkFrameRow sid fid f).id)
          = teleRowsOf dmap fid f := by
        have := hfil 0 (Nat.succ_pos fs.length)
        rw [Nat.add_zero] at this
        exact this
      simp only [loadFrameFun]
      rw [hf0, teleRowsOf, teleRows_filterMap fid dmap idToCode f.drivers hdr,
        weatherOf_mkFrameRow sid fid f hw]
      rfl
    have htail : (frameRowsFrom sid (fid + 1) fs).map (loadFrameFun tele idToCode)
        = fs.map expectedOutFrame := by
      refine map_loadFrame tele idToCode dmap sid fs (fid + 1) ?_
        (fun g hg => hok g (List.mem_cons_of_mem f hg))
      intro j hj
      have := hfil (j + 1) (Nat.succ_lt_succ hj)
      rw [show fid + (j + 1) = fid + 1 + j from by omega] at this
      exact this
    rw [hhead, htail]

theorem contains_mem (l : List String) (a : String) (h : l.contains a = true) : a ∈ l := by
  simpa using h

theorem frameOk_facts (codes : List String) (f : InFrame) (h : frameOk codes f = true) :
    f.t.isSome = true ∧ (∀ w, f.weather = some w → w.track_temp.isSome = true) ∧
    ∀ cs ∈ f.drivers, cs.1 ∈ codes := by
  rw [frameOk, Bool.and_eq_true, Bool.and_eq_true] at h
  obtain ⟨⟨h1, h2⟩, h3⟩ := h
  refine ⟨h1, ?_, ?_⟩
  · intro w hw
    rw [hw] at h2
    exact h2
  · intro cs hcs
    exact contains_mem _ _ (List.all_eq_true.mp h3 cs hcs)

theorem validRace_facts (p : RacePayload) (f0 : InFrame) (rest : List InFrame)
    (hp : p.frames = f0 :: rest) (hv : validRacePayload p = true) :
    (f0.drivers.map Prod.fst).Nodup ∧
    (∀ f ∈ p.frames, frameOk (f0.drivers.map Prod.fst) f = true) ∧
    chainLeBy (fun f => f.t.getD 0) p.frames = true ∧
    chainLeBy (fun ts => ts.start_time) p.track_statuses = true := by
  rw [validRacePayload] at hv
  rw [hp] at hv
  simp only [Bool.and_eq_true, decide_eq_true_eq, List.all_eq_true] at hv
  obtain ⟨⟨⟨h1, h2⟩, h3⟩, h4⟩ := hv
  rw [hp]
  exact ⟨h1, h2, h3, h4⟩

theorem statusRow_mem_sid (sid : Nat) (l : List TrackStatusIn) :
    ∀ x ∈ l.map (mkStatusRow sid), x.session_id = sid := by
  intro x hx
  obtain ⟨ts, _, hts⟩ := List.mem_map.mp hx
  rw [← hts]
  rfl

/-- The exported dictionary a race import is expected to round-trip to. -/
def expectedLoadedRace (p : RacePayload) : LoadedRace :=
  { frames := p.frames.map expectedOutFrame, driver_colors := expectedColors p,
    track_statuses := p.track_statuses, total_laps := some p.total_laps }

theorem loadRace_mkRaceDB (db : DB) (y r : Int) (st : String) (info : SessionInfo)
    (p : RacePayload) (hwf : db.wf = true) (hfresh : findSession db y r st = none)
    (hv : validRacePayload p = true) :
    loadRaceTelemetry (mkRaceDB db y r st info p) y r st = some (expectedLoadedRace p) := by
  obtain ⟨f0, rest, hp⟩ : ∃ f0 rest, p.frames = f0 :: rest := by
    cases hp : p.frames with
    | nil => rw [validRacePayload, hp] at hv; simp at hv
    | cons a l => exact ⟨a, l, rfl⟩
  obtain ⟨hnd, hok, htimes, hstat⟩ := validRace_facts p f0 rest hp hv
  obtain ⟨hwS, hwD, hwF, hwT, hwTS, hwQ, hwQT⟩ := wf_facts db hwf
  set sid := db.nextId with hsid
  set codes := firstFrameCodes p with hcodes
  have hcodes0 : codes = f0.drivers.map Prod.fst := by
    rw [hcodes, firstFrameCodes, hp]
  set nid := sid + 1 + codes.length with hnid
  set dmap := dmapFrom (sid + 1) codes with hdmap
  set newDrivers := driverRowsFrom sid p.driver_colors (sid + 1) codes with hnewD
  set srow := sessionRowOfRace sid y r st info p with hsrow
  have hfind : findSession (mkRaceDB db y r st info p) y r st = some srow := by
    rw [findSession, mkRaceDB]
    rw [find?_append_none _ _ _ hfresh]
    rw [List.find?_cons]
    have : (srow.year == y && srow.round_number == r && srow.session_type == st) = true := by
      rw [hsrow, sessionRowOfRace]
      simp
    rw [this]
  have hsrowid : srow.id = sid := rfl
  have hdrs : (mkRaceDB db y r st info p).drivers.filter (fun d => d.session_id == srow.id)
      = newDrivers := by
    show (db.drivers ++ newDrivers).filter _ = newDrivers
    rw [List.filter_append]
    rw [filter_none_of _ db.drivers (fun d hd => by
      have := (hwD d hd).2
      simp only [hsrowid, beq_eq_false_iff_ne, ne_eq]
      omega)]
    rw [filter_all_of _ newDrivers (fun d hd => by
      have := (driverRowsFrom_fields sid p.driver_colors codes (sid + 1) d hd).1
      simp only [hsrowid, this]
      simp)]
    rw [List.nil_append]
  have hstatuses : (mkRaceDB db y r st info p).track_statuses.filter
      (fun ts => ts.session_id == srow.id) = p.track_statuses.map (mkStatusRow sid) := by
    show (db.track_statuses ++ p.track_statuses.map (mkStatusRow sid)).filter _ = _
    rw [List.filter_append]
    rw [filter_none_of _ db.track_statuses (fun ts hts => by
      have := hwTS ts hts
      simp only [hsrowid, beq_eq_false_iff_ne, ne_eq]
      omega)]
    rw [filter_all_of _ _ (fun x hx => by
      rw [statusRow_mem_sid sid p.track_statuses x hx, hsrowid]
      simp)]
    rw [List.nil_append]
  have hframes : (mkRaceDB db y r st info p).frames.filter
      (fun fr => fr.session_id == srow.id) = frameRowsFrom sid nid p.frames := by
    show (db.frames ++ frameRowsFrom sid nid p.frames).filter _ = _
    rw [List.filter_append]
    rw [filter_none_of _ db.frames (fun fr hfr => by
      have := (hwF fr hfr).2
      simp only [hsrowid, beq_eq_false_iff_ne, ne_eq]
      omega)]
    rw [filter_all_of _ _ (fun x hx => by
      rw [(frameRowsFrom_fields sid p.frames nid x hx).1, hsrowid]
      simp)]
    rw [List.nil_append]
  have hsortS : List.insertionSort statusLe (p.track_statuses.map (mkStatusRow sid))
      = p.track_statuses.map (mkStatusRow sid) := by
    apply List.Sorted.insertionSort_eq
    exact List.pairwise_map.mpr ((chainLeBy_pairwise _ _ hstat).imp (fun h => h))
  have hsortF : List.insertionSort frameLe (frameRowsFrom sid nid p.frames)
      = frameRowsFrom sid nid p.frames := by
    apply List.Sorted.insertionSort_eq
    exact frameRowsFrom_pairwise sid p.frames nid (chainLeBy_pairwise _ _ htimes)
  have hmapS : (p.track_statuses.map (mkStatusRow sid)).map
      (fun ts => ({ status := ts.status, start_time := ts.start_time, end_time := ts.end_time } : TrackStatusIn)) = p.track_statuses := by
    rw [List.map_map]
    have h : ∀ ts ∈ p.track_statuses,
        ((fun ts => ({ status := ts.status, start_time := ts.start_time, end_time := ts.end_time } : TrackStatusIn)) ∘ mkStatusRow sid) ts = id ts :=
      fun ts _ => rfl
    rw [List.map_congr_left h, List.map_id]
  have hcolors : newDrivers.map (fun d => (d.driver_code, (d.color_r, d.color_g, d.color_b)))
      = expectedColors p := by
    rw [hnewD, driverRowsFrom_colors, expectedColors]
  have houtF : (frameRowsFrom sid nid p.frames).map
      (loadFrameFun (mkRaceDB db y r st info p).telemetry
        (newDrivers.map (fun d => (d.id, d.driver_code))))
      = p.frames.map expectedOutFrame := by
    apply map_loadFrame _ _ dmap
    · intro j hj
      show (db.telemetry ++ teleRowsFrom dmap nid p.frames).filter _ = _
      rw [List.filter_append]
      rw [filter_none_of _ db.telemetry (fun t ht => by
        have := (hwT t ht).1
        simp only [beq_eq_false_iff_ne, ne_eq]
        omega)]
      rw [teleRowsFrom_filter dmap p.frames nid j hj, List.nil_append]
    · intro f hf
      obtain ⟨-, hw, hdr⟩ := frameOk_facts _ f (hok f hf)
      refine ⟨hw, fun cs hcs => ?_⟩
      have hcmem : cs.1 ∈ codes := by
        rw [hcodes0]
        exact hdr cs hcs
      have hndc : codes.Nodup := by
        rw [hcodes0]
        exact hnd
      obtain ⟨d, -, hd1, hd2⟩ := dmap_lookup sid p.driver_colors codes (sid + 1) cs.1 hndc hcmem
      exact ⟨d, hd1, hd2⟩
  simp only [loadRaceTelemetry, hfind, hdrs, hstatuses, hframes, hsortS, hsortF, hmapS,
    hcolors, houtF]
  rfl

/-- Claim C1: for every valid race telemetry payload imported under a fresh
natural key into a well-formed store, loading that key returns a payload
field-equivalent to the input: the same frames in the same order, each frame
with the same per-driver sample fields and driver set, weather present
exactly when present at import, and the tyre compound recoverable as the
stored integer (`expectedLoadedRace` spells out this field-level
equivalence). -/
theorem c1_race_round_trip (db : DB) (y r : Int) (st : String) (info : SessionInfo)
    (p : RacePayload) (hwf : db.wf = true) (hfresh : findSession db y r st = none)
    (hv : validRacePayload p = true) :
    (saveRaceTelemetry db y r st info p none).1 = some db.nextId ∧
    loadRaceTelemetry (saveRaceTelemetry db y r st info p none).2 y r st
      = some (expectedLoadedRace p) := by
  obtain ⟨f0, rest, hp⟩ : ∃ f0 rest, p.frames = f0 :: rest := by
    cases hp : p.frames with
    | nil => rw [validRacePayload, hp] at hv; simp at hv
    | cons a l => exact ⟨a, l, rfl⟩
  have hne : p.frames ≠ [] := by rw [hp]; simp
  have hT : ∀ f ∈ p.frames, f.t.isSome := fun f hf =>
    (frameOk_facts _ f ((validRace_facts p f0 rest hp hv).2.1 f hf)).1
  rw [saveRace_eq db y r st info p hfresh hne hT]
  exact ⟨rfl, loadRace_mkRaceDB db y r st info p hwf hfresh hv⟩

/-- A concrete session-metadata dictionary for witnesses. -/
def info0 : SessionInfo :=
  ⟨some "Grand Prix", some "Circuit A", some "Utopia", some "2024-03-02", some 3⟩

/-- A concrete valid two-frame race payload for the round-trip witness. -/
def p0 : RacePayload :=
  { frames := [
      ⟨some 1, some 1, some ⟨some 30, some 25, some 50, some 10, some 180, some "DRY"⟩,
        [("VER", ⟨1, 2, some 3, some 1, some 1, some 1, some 300, some 7, some 1,
          some 100, some 0, some 2⟩)]⟩,
      ⟨some 2, some 1, none,
        [("VER", ⟨2, 3, none, none, none, none, none, none, none, none, none, none⟩)]⟩],
    driver_colors := [("VER", (1, 2, 3))],
    track_statuses := [⟨"1", 0, some 10⟩, ⟨"4", 10, none⟩],
    total_laps := 57 }

theorem c1_witness :
    emptyDB.wf = true ∧ findSession emptyDB 2024 1 "R" = none ∧
    validRacePayload p0 = true ∧
    ((saveRaceTelemetry emptyDB 2024 1 "R" info0 p0 none).1 = some emptyDB.nextId ∧
      loadRaceTelemetry (saveRaceTelemetry emptyDB 2024 1 "R" info0 p0 none).2 2024 1 "R"
        = some (expectedLoadedRace p0)) :=
  ⟨by decide, by decide, by decide,
    c1_race_round_trip emptyDB 2024 1 "R" info0 p0 (by decide) (by decide) (by decide)⟩

theorem saveRace_existing (db : DB) (y r : Int) (st : String) (info : SessionInfo)
    (p : RacePayload) (fa : Option Nat) (s : SessionRow) (h : findSession db y r st = some s) :
    saveRaceTelemetry db y r st info p fa = (some s.id, db) := by
  simp only [saveRaceTelemetry, h]

theorem saveQuali_existing (db : DB) (y r : Int) (st : String) (info : SessionInfo)
    (qp : QualiPayload) (s : SessionRow) (h : findSession db y r st = some s) :
    saveQualifyingTelemetry db y r st info qp = (some s.id, db) := by
  simp only [saveQualifyingTelemetry, h]

theorem saveFramesGo_res (sid : Nat) (dmap : List (String × Nat)) (fa : Option Nat) :
    ∀ (fs : List InFrame) (idx : Nat) (c w : DB) (j : Nat) (d : DB),
    saveFramesGo sid dmap fa fs idx c w = (some j, d) →
    j = sid ∧ (d = c ∨ d.sessions = w.sessions)
  | [], idx, c, w, j, d, h => by
    rw [saveFramesGo] at h
    by_cases hb : idx % 100 = 0
    · rw [if_pos hb] at h
      injection h with h1 h2
      injection h1 with h1
      exact ⟨h1.symm, Or.inl h2.symm⟩
    · rw [if_neg hb] at h
      injection h with h1 h2
      injection h1 with h1
      exact ⟨h1.symm, Or.inr (by rw [h2])⟩
  | f :: fs, idx, c, w, j, d, h => by
    rw [saveFramesGo] at h
    by_cases hfa : (fa == some idx) = true
    · rw [if_pos hfa] at h
      injection h with h1 h2
      exact absurd h1 (by simp)
    · rw [if_neg hfa] at h
      by_cases ht : f.t.isNone = true
      · rw [if_pos ht] at h
        injection h with h1 h2
        exact absurd h1 (by simp)
      · rw [if_neg ht] at h
        by_cases hb : (idx + 1) % 100 = 0
        · rw [if_pos hb] at h
          obtain ⟨h1, h2⟩ := saveFramesGo_res sid dmap fa fs (idx + 1) _ _ j d h
          refine ⟨h1, Or.inr ?_⟩
          rcases h2 with h2 | h2
          · rw [h2]; rfl
          · rw [h2]; rfl
        · rw [if_neg hb] at h
          obtain ⟨h1, h2⟩ := saveFramesGo_res sid dmap fa fs (idx + 1) _ _ j d h
          refine ⟨h1, ?_⟩
          rcases h2 with h2 | h2
          · exact Or.inl h2
          · exact Or.inr (by rw [h2]; rfl)

theorem saveQualiGo_sessions (sid : Nat) (tele : List (String × List (String × SegIn))) :
    ∀ (l : List QResultIn) (db db' : DB), saveQualiGo sid tele l db = some db' →
    db'.sessions = db.sessions
  | [], db, db', h => by
    rw [saveQualiGo] at h
    injection h with h
    rw [← h]
  | res :: l, db, db', h => by
    rw [saveQualiGo] at h
    cases h1 : qTimeParse res.q1 with
    | none => rw [h1] at h; exact absurd h (by simp)
    | some t1 =>
      cases h2 : qTimeParse res.q2 with
      | none => rw [h1] at h; rw [h2] at h; exact absurd h (by simp)
      | some t2 =>
        cases h3 : qTimeParse res.q3 with
        | none => rw [h1] at h; rw [h2] at h; rw [h3] at h; exact absurd h (by simp)
        | some t3 =>
          simp only [h1, h2, h3] at h
          have hrec := saveQualiGo_sessions sid tele l _ db' h
          exact hrec

/-- Claim C3: a repeated import under an already-stored natural key (race or
qualifying) is a no-op returning the existing session's identifier and
leaving the store untouched, and two successive imports of the same fresh
key return the same identifier both times. -/
theorem c3_idempotent_reimport :
    (∀ (db : DB) (y r : Int) (st : String) (info : SessionInfo) (p : RacePayload)
      (fa : Option Nat) (s : SessionRow), findSession db y r st = some s →
      saveRaceTelemetry db y r st info p fa = (some s.id, db)) ∧
    (∀ (db : DB) (y r : Int) (st : String) (info : SessionInfo) (qp : QualiPayload)
      (s : SessionRow), findSession db y r st = some s →
      saveQualifyingTelemetry db y r st info qp = (some s.id, db)) ∧
    (∀ (db : DB) (y r : Int) (st : String) (info : SessionInfo) (p : RacePayload)
      (i : Nat) (db1 : DB), findSession db y r st = none →
      saveRaceTelemetry db y r st info p none = (some i, db1) →
      saveRaceTelemetry db1 y r st info p none = (some i, db1)) ∧
    (∀ (db : DB) (y r : Int) (st : String) (info : SessionInfo) (qp : QualiPayload)
      (i : Nat) (db1 : DB), findSession db y r st = none →
      saveQualifyingTelemetry db y r st info qp = (some i, db1) →
      saveQualifyingTelemetry db1 y r st info qp = (some i, db1)) := by
  refine ⟨fun db y r st info p fa s h => saveRace_existing db y r st info p fa s h,
    fun db y r st info qp s h => saveQuali_existing db y r st info qp s h,
    fun db y r st info p i db1 hfresh hsave => ?_, fun db y r st info qp i db1 hfresh hsave => ?_⟩
  · have hsave' := hsave
    rw [saveRaceTelemetry, hfresh] at hsave'
    simp only [addDrivers_eq] at hsave'
    obtain ⟨hj, hd⟩ := saveFramesGo_res _ _ _ _ _ _ _ _ _ hsave'
    rcases hd with hd | hd
    · rw [hd] at hsave ⊢
      exact hsave
    · have hsess : db1.sessions = db.sessions ++ [sessionRowOfRace db.nextId y r st info p] := by
        rw [hd]
      have hfind1 : findSession db1 y r st = some (sessionRowOfRace db.nextId y r st info p) := by
        rw [findSession, hsess, find?_append_none _ _ _ hfresh, List.find?_cons]
        have : ((sessionRowOfRace db.nextId y r st info p).year == y &&
            (sessionRowOfRace db.nextId y r st info p).round_number == r &&
            (sessionRowOfRace db.nextId y r st info p).session_type == st) = true := by
          simp [sessionRowOfRace]
        rw [this]
      rw [saveRace_existing db1 y r st info p none _ hfind1]
      rw [hj]
      rfl
  · have hsave' := hsave
    simp only [saveQualifyingTelemetry, hfresh] at hsave'
    cases hgo : saveQualiGo db.nextId qp.telemetry qp.results
        { db with nextId := db.nextId + 1,
                  sessions := db.sessions ++ [sessionRowOfQuali db.nextId y r st info] } with
    | none =>
      rw [hgo] at hsave'
      injection hsave' with h1 h2
      exact absurd h1 (by simp)
    | some db2 =>
      rw [hgo] at hsave'
      injection hsave' with h1 h2
      injection h1 with h1
      have hsess : db1.sessions = db.sessions ++ [sessionRowOfQuali db.nextId y r st info] := by
        rw [← h2]
        exact saveQualiGo_sessions _ _ _ _ _ hgo
      have hfind1 : findSession db1 y r st = some (sessionRowOfQuali db.nextId y r st info) := by
        rw [findSession, hsess, find?_append_none _ _ _ hfresh, List.find?_cons]
        have : ((sessionRowOfQuali db.nextId y r st info).year == y &&
            (sessionRowOfQuali db.nextId y r st info).round_number == r &&
            (sessionRowOfQuali db.nextId y r st info).session_type == st) = true := by
          simp [sessionRowOfQuali]
        rw [this]
      rw [saveQuali_existing db1 y r st info qp _ hfind1]
      rw [← h1]
      rfl

/-- A store already holding one race session (id 0) under the key
(2024, 1, R). -/
def db1s : DB :=
  { nextId := 1,
    sessions := [⟨0, 2024, 1, "R", "Grand Prix", "", "", "", some 57, some 0⟩],
    drivers := [], frames := [], telemetry := [], track_statuses := [],
    quali_results := [], quali_telemetry := [] }

/-- A concrete qualifying sample for witnesses. -/
def qsample0 : QSample := ⟨0, 1, 2, 3, 1, 300, 7, 100, 0, 1⟩

/-- A concrete qualifying payload for witnesses: one driver, Q1 trace only. -/
def qp0 : QualiPayload :=
  { results := [⟨"VER", some "Max Verstappen", some (1, 2, 3), 1, some "83.456", none, none⟩],
    telemetry := [("VER",
      [("Q1", ⟨[qsample0], some 300, some 80, some ⟨some 20, some 30, some 33⟩,
        some 2, some [100]⟩)])] }

/-- The store after a first race import of (2024, 1, R) into the empty
store. -/
def dbR1 : DB := (saveRaceTelemetry emptyDB 2024 1 "R" info0 p0 none).2

/-- The store after a first qualifying import of (2024, 1, Q) into the empty
store. -/
def dbQ1 : DB := (saveQualifyingTelemetry emptyDB 2024 1 "Q" info0 qp0).2

unseal Rat.add Rat.mul Rat.inv Rat.sub in
theorem c3_witness :
    saveRaceTelemetry db1s 2024 1 "R" info0 p0 none = (some 0, db1s) ∧
    saveQualifyingTelemetry db1s 2024 1 "R" info0 qp0 = (some 0, db1s) ∧
    saveRaceTelemetry dbR1 2024 1 "R" info0 p0 none = (some 0, dbR1) ∧
    saveQualifyingTelemetry dbQ1 2024 1 "Q" info0 qp0 = (some 0, dbQ1) := by
  refine ⟨?_, ?_, ?_, ?_⟩
  · exact c3_idempotent_reimport.1 db1s 2024 1 "R" info0 p0 none
      ⟨0, 2024, 1, "R", "Grand Prix", "", "", "", some 57, some 0⟩ (by decide)
  · exact c3_idempotent_reimport.2.1 db1s 2024 1 "R" info0 qp0
      ⟨0, 2024, 1, "R", "Grand Prix", "", "", "", some 57, some 0⟩ (by decide)
  · exact c3_idempotent_reimport.2.2.1 emptyDB 2024 1 "R" info0 p0 0 dbR1
      (by decide) (by decide)
  · exact c3_idempotent_reimport.2.2.2 emptyDB 2024 1 "Q" info0 qp0 0 dbQ1
      (by decide) (by decide)

theorem drivers_filter_mkRaceDB (db : DB) (y r : Int) (st : String) (info : SessionInfo)
    (p : RacePayload) (hwf : db.wf = true) :
    (mkRaceDB db y r st info p).drivers.filter (fun d => d.session_id == db.nextId)
      = driverRowsFrom db.nextId p.driver_colors (db.nextId + 1) (firstFrameCodes p) := by
  obtain ⟨-, hwD, -, -, -, -, -⟩ := wf_facts db hwf
  show (db.drivers ++ driverRowsFrom db.nextId p.driver_colors (db.nextId + 1) (firstFrameCodes p)).filter _ = _
  rw [List.filter_append]
  rw [filter_none_of _ db.drivers (fun d hd => by
    have := (hwD d hd).2
    simp only [beq_eq_false_iff_ne, ne_eq]
    omega)]
  rw [filter_all_of _ _ (fun d hd => by
    rw [(driverRowsFrom_fields db.nextId p.driver_colors (firstFrameCodes p) (db.nextId + 1) d hd).1]
    simp)]
  rw [List.nil_append]

theorem findSession_mkRaceDB (db : DB) (y r : Int) (st : String) (info : SessionInfo)
    (p : RacePayload) (hfresh : findSession db y r st = none) :
    findSession (mkRaceDB db y r st info p) y r st
      = some (sessionRowOfRace db.nextId y r st info p) := by
  rw [findSession, mkRaceDB]
  rw [find?_append_none _ _ _ hfresh]
  rw [List.find?_cons]
  have : ((sessionRowOfRace db.nextId y r st info p).year == y &&
      (sessionRowOfRace db.nextId y r st info p).round_number == r &&
      (sessionRowOfRace db.nextId y r st info p).session_type == st) = true := by
    simp [sessionRowOfRace]
  rw [this]

/-- Claim C5: the race importer persists `Driver` rows only for the codes of
the first frame; a driver first appearing in a later frame gets no row and
its samples are absent from the export. -/
theorem c5_first_frame_drivers (db : DB) (y r : Int) (st : String) (info : SessionInfo)
    (p : RacePayload) (f0 : InFrame) (rest : List InFrame) (hwf : db.wf = true)
    (hfresh : findSession db y r st = none) (hT : ∀ f ∈ p.frames, f.t.isSome)
    (hp : p.frames = f0 :: rest) :
    (saveRaceTelemetry db y r st info p none).1 = some db.nextId ∧
    (((saveRaceTelemetry db y r st info p none).2.drivers.filter
        (fun d => d.session_id == db.nextId)).map (fun d => d.driver_code)
      = f0.drivers.map Prod.fst) ∧
    ∃ out, loadRaceTelemetry (saveRaceTelemetry db y r st info p none).2 y r st = some out ∧
      ∀ c, c ∉ f0.drivers.map Prod.fst → ∀ g ∈ out.frames, g.drivers.lookup c = none := by
  have hne : p.frames ≠ [] := by rw [hp]; simp
  rw [saveRace_eq db y r st info p hfresh hne hT]
  have hcodes0 : firstFrameCodes p = f0.drivers.map Prod.fst := by
    rw [firstFrameCodes, hp]
  refine ⟨rfl, ?_, ?_⟩
  · rw [drivers_filter_mkRaceDB db y r st info p hwf, driverRowsFrom_codes, hcodes0]
  · simp only [loadRaceTelemetry, findSession_mkRaceDB db y r st info p hfresh]
    refine ⟨_, rfl, ?_⟩
    intro c hc g hg
    obtain ⟨fr, -, hfr⟩ := List.mem_map.mp hg
    rw [← hfr, loadFrameFun]
    apply lookup_none_of
    intro e he
    obtain ⟨t, -, ht⟩ := List.mem_filterMap.mp he
    obtain ⟨code, hcode, he2⟩ := Option.map_eq_some'.mp ht
    have hsid : (sessionRowOfRace db.nextId y r st info p).id = db.nextId := rfl
    rw [hsid] at hcode
    rw [drivers_filter_mkRaceDB db y r st info p hwf] at hcode
    have hmem : code ∈ firstFrameCodes p :=
      idToCode_values db.nextId p.driver_colors (firstFrameCodes p) (db.nextId + 1)
        t.driver_id code hcode
    rw [hcodes0] at hmem
    rw [← he2]
    intro hec
    have hcc : code = c := hec
    rw [hcc] at hmem
    exact hc hmem

/-- An opaque sample used by the unstable-driver-set payload. -/
def sampleB : DriverSample := ⟨5, 6, none, none, none, none, none, none, none, none, none, none⟩

/-- A payload whose second frame introduces a driver (`HAM`) absent from the
first frame. -/
def f0Bad : InFrame := ⟨some 1, none, none, [("VER", sampleB)]⟩

def f1Bad : InFrame := ⟨some 2, none, none, [("HAM", sampleB), ("VER", sampleB)]⟩

def pBad : RacePayload :=
  ⟨[f0Bad, f1Bad], [("VER", (1, 2, 3)), ("HAM", (4, 5, 6))], [], 10⟩

theorem c5_witness :
    (saveRaceTelemetry emptyDB 2024 1 "R" info0 pBad none).1 = some emptyDB.nextId ∧
    (((saveRaceTelemetry emptyDB 2024 1 "R" info0 pBad none).2.drivers.filter
        (fun d => d.session_id == emptyDB.nextId)).map (fun d => d.driver_code)
      = f0Bad.drivers.map Prod.fst) ∧
    ∃ out, loadRaceTelemetry (saveRaceTelemetry emptyDB 2024 1 "R" info0 pBad none).2 2024 1 "R"
        = some out ∧
      ∀ c, c ∉ f0Bad.drivers.map Prod.fst → ∀ g ∈ out.frames, g.drivers.lookup c = none :=
  c5_first_frame_drivers emptyDB 2024 1 "R" info0 pBad f0Bad [f1Bad]
    (by decide) (by decide) (by decide) rfl

/-- A 250-frame race payload (one driver per frame). -/
def p250 : RacePayload :=
  { frames := (List.range 250).map (fun i => ⟨some (i : ℚ), none, none, [("VER", sampleB)]⟩),
    driver_colors := [("VER", (1, 2, 3))],
    track_statuses := [⟨"1", 0, none⟩],
    total_laps := 57 }

/-- The import of `p250` with a simulated storage fault while persisting
frame 150 (mid second batch). -/
def c2run : Option Nat × DB := saveRaceTelemetry emptyDB 2024 1 "R" info0 p250 (some 150)

set_option maxRecDepth 100000 in
/-- Claim C2 (divergence witness): a storage fault at frame 150 of a
250-frame import makes the importer report failure, yet the Session row and
the 100 frames of the first committed batch remain visible to readers — so
the import is not rolled back as a whole: `save_race_telemetry` commits
every 100-frame batch as its own transaction and the final rollback can only
discard the in-flight batch. -/
theorem c2_partial_batch_commit :
    c2run.1 = none ∧ c2run.2.sessions.length = 1 ∧ c2run.2.frames.length = 100 ∧
    checkSessionExists c2run.2 2024 1 "R" = true ∧
    (loadRaceTelemetry c2run.2 2024 1 "R").map (fun o => o.frames.length) = some 100 := by
  decide

theorem saveFramesGo_first_batch_fail (sid : Nat) (dmap : List (String × Nat)) :
    ∀ (fs : List InFrame) (idx : Nat) (c w : DB) (j : Nat) (hj : j < fs.length),
    (fs.get ⟨j, hj⟩).t = none → (∀ m, idx < m → m ≤ idx + j → m % 100 ≠ 0) →
    saveFramesGo sid dmap none fs idx c w = (none, c)
  | [], _, _, _, j, hj, _, _ => absurd hj (Nat.not_lt_zero j)
  | f :: rest, idx, c, w, j, hj, ht, hm => by
    rw [saveFramesGo]
    rw [if_neg (by simp : ¬ (((none : Option Nat) == some idx) = true))]
    cases hf : f.t with
    | none =>
      have hn : (none : Option ℚ).isNone = true := rfl
      rw [if_pos hn]
    | some v =>
      have hn : ¬ ((some v : Option ℚ).isNone = true) := by simp
      rw [if_neg hn]
      cases j with
      | zero =>
        rw [show (f :: rest).get ⟨0, hj⟩ = f from rfl, hf] at ht
        exact absurd ht (by simp)
      | succ j' =>
        have hb : (idx + 1) % 100 ≠ 0 := hm (idx + 1) (by omega) (by omega)
        rw [if_neg hb]
        exact saveFramesGo_first_batch_fail sid dmap rest (idx + 1) c _ j'
          (Nat.lt_of_succ_lt_succ hj) ht
          (fun m h1 h2 => hm m (by omega) (by omega))

/-- Claim C6 (amended): a race payload whose first batch (first 100 frames)
contains a frame without the required timestamp key makes the import fail
with the store unchanged — no Session, Driver, TrackStatus or frame row
becomes visible, because the error is raised before the first batch commit. -/
theorem c6_first_batch_fail_clean (db : DB) (y r : Int) (st : String) (info : SessionInfo)
    (p : RacePayload) (hfresh : findSession db y r st = none) (j : Nat)
    (hj : j < p.frames.length) (hj100 : j < 100) (ht : (p.frames.get ⟨j, hj⟩).t = none) :
    saveRaceTelemetry db y r st info p none = (none, db) := by
  simp only [saveRaceTelemetry, hfresh, addDrivers_eq]
  exact saveFramesGo_first_batch_fail _ _ p.frames 0 db _ j hj ht
    (fun m h1 h2 => by omega)

/-- A 150-frame payload whose frame at index 100 (start of the second batch)
has no timestamp key. -/
def p150bad : RacePayload :=
  { frames := (List.range 150).map
      (fun i => ⟨if i = 100 then none else some (i : ℚ), none, none, [("VER", sampleB)]⟩),
    driver_colors := [("VER", (1, 2, 3))],
    track_statuses := [],
    total_laps := 5 }

/-- The import of the malformed `p150bad` (no simulated fault: the failure
comes from the missing `t` itself). -/
def c6run : Option Nat × DB := saveRaceTelemetry emptyDB 2024 1 "R" info0 p150bad none

set_option maxRecDepth 100000 in
/-- Claim C6 counterexample: a malformed frame in the second batch makes
the import fail only after the Session row and the first 100 frames were
committed — the failure is not raised before any row is written. -/
theorem c6_counterexample :
    c6run.1 = none ∧ c6run.2.sessions.length = 1 ∧ c6run.2.frames.length = 100 := by
  decide

/-- A one-frame payload whose only frame lacks the timestamp key. -/
def pNoT : RacePayload := ⟨[⟨none, none, none, [("VER", sampleB)]⟩], [], [], 3⟩

theorem c6_witness :
    saveRaceTelemetry emptyDB 2024 1 "R" info0 pNoT none = (none, emptyDB) :=
  c6_first_batch_fail_clean emptyDB 2024 1 "R" info0 pNoT (by decide) 0
    (by decide) (by decide) (by decide)

/-- The driver row written for one qualifying result entry. -/
def qualiDriverRow (sid did : Nat) (res : QResultIn) : DriverRow :=
  let c := res.color.getD defaultColor
  { id := did, session_id := sid, driver_code := res.code, full_name := res.full_name,
    color_r := c.1, color_g := c.2.1, color_b := c.2.2 }

/-- The qualifying result row written for one result entry (times already
parsed). -/
def qualiResultRow (sid did : Nat) (res : QResultIn) : QualiResultRow :=
  { id := did + 1, session_id := sid, driver_id := did, position := res.position,
    q1_time := (qTimeParse res.q1).join, q2_time := (qTimeParse res.q2).join,
    q3_time := (qTimeParse res.q3).join }

/-- The rows written by the qualifying per-result loop, ids from `did` (two
per result: driver then result). -/
def qualiRows (sid : Nat) (tele : List (String × List (String × SegIn))) :
    Nat → List QResultIn → List DriverRow × List QualiResultRow × List QualiTeleRow
  | _, [] => ([], [], [])
  | did, res :: rest =>
    let t := qualiRows sid tele (did + 2) rest
    (qualiDriverRow sid did res :: t.1, qualiResultRow sid did res :: t.2.1,
     segRowsFor (did + 1) ((tele.lookup res.code).getD []) ++ t.2.2)

/-- All three lap-time fields of a result entry parse (`float()` succeeds or
the field is absent/empty). -/
def parseOkRes (res : QResultIn) : Bool :=
  (qTimeParse res.q1).isSome && (qTimeParse res.q2).isSome && (qTimeParse res.q3).isSome

theorem saveQualiGo_eq (sid : Nat) (tele : List (String × List (String × SegIn))) :
    ∀ (l : List QResultIn) (db : DB), (∀ res ∈ l, parseOkRes res = true) →
    saveQualiGo sid tele l db = some
      { db with nextId := db.nextId + 2 * l.length,
                drivers := db.drivers ++ (qualiRows sid tele db.nextId l).1,
                quali_results := db.quali_results ++ (qualiRows sid tele db.nextId l).2.1,
                quali_telemetry := db.quali_telemetry ++ (qualiRows sid tele db.nextId l).2.2 }
  | [], db, _ => by
    obtain ⟨n, ss, ds, fs, ts, sts, qs, qts⟩ := db
    simp [saveQualiGo, qualiRows]
  | res :: rest, db, h => by
    have hres := h res (List.mem_cons_self res rest)
    rw [parseOkRes, Bool.and_eq_true, Bool.and_eq_true] at hres
    obtain ⟨⟨hq1, hq2⟩, hq3⟩ := hres
    obtain ⟨t1, ht1⟩ := Option.isSome_iff_exists.mp hq1
    obtain ⟨t2, ht2⟩ := Option.isSome_iff_exists.mp hq2
    obtain ⟨t3, ht3⟩ := Option.isSome_iff_exists.mp hq3
    rw [saveQualiGo]
    simp only [ht1, ht2, ht3]
    rw [saveQualiGo_eq sid tele rest _ (fun x hx => h x (List.mem_cons_of_mem res hx))]
    obtain ⟨n, ss, ds, fs, ts, sts, qs, qts⟩ := db
    simp only [qualiRows, List.length_cons]
    rw [show n + 1 + 1 + 2 * rest.length = n + 2 * (rest.length + 1) from by omega]
    simp [qualiDriverRow, qualiResultRow, ht1, ht2, ht3, Option.join, List.append_assoc]

/-- The committed store after a successful qualifying import of a fresh
key. -/
def mkQualiDB (db : DB) (y r : Int) (st : String) (info : SessionInfo) (qp : QualiPayload) : DB :=
  { nextId := db.nextId + 1 + 2 * qp.results.length,
    sessions := db.sessions ++ [sessionRowOfQuali db.nextId y r st info],
    drivers := db.drivers ++ (qualiRows db.nextId qp.telemetry (db.nextId + 1) qp.results).1,
    frames := db.frames,
    telemetry := db.telemetry,
    track_statuses := db.track_statuses,
    quali_results := db.quali_results ++ (qualiRows db.nextId qp.telemetry (db.nextId + 1) qp.results).2.1,
    quali_telemetry := db.quali_telemetry ++ (qualiRows db.nextId qp.telemetry (db.nextId + 1) qp.results).2.2 }

theorem saveQuali_eq (db : DB) (y r : Int) (st : String) (info : SessionInfo)
    (qp : QualiPayload) (hfresh : findSession db y r st = none)
    (hok : ∀ res ∈ qp.results, parseOkRes res = true) :
    saveQualifyingTelemetry db y r st info qp = (some db.nextId, mkQualiDB db y r st info qp) := by
  simp only [saveQualifyingTelemetry, hfresh]
  rw [saveQualiGo_eq db.nextId qp.telemetry qp.results _ hok]
  obtain ⟨n, ss, ds, fs, ts, sts, qs, qts⟩ := db
  simp only [mkQualiDB, Prod.mk.injEq, DB.mk.injEq, List.nil_append]

theorem findSession_mkQualiDB (db : DB) (y r : Int) (st : String) (info : SessionInfo)
    (qp : QualiPayload) (hfresh : findSession db y r st = none) :
    findSession (mkQualiDB db y r st info qp) y r st
      = some (sessionRowOfQuali db.nextId y r st info) := by
  rw [findSession, mkQualiDB]
  rw [find?_append_none _ _ _ hfresh]
  rw [List.find?_cons]
  have : ((sessionRowOfQuali db.nextId y r st info).year == y &&
      (sessionRowOfQuali db.nextId y r st info).round_number == r &&
      (sessionRowOfQuali db.nextId y r st info).session_type == st) = true := by
    simp [sessionRowOfQuali]
  rw [this]

/-- The exported result entry for a stored qualifying result row; resolves
the driver by id (`result.driver`). -/
def outResOf (db : DB) (qr : QualiResultRow) : OutQualiResult :=
  match db.drivers.find? (fun d => d.id == qr.driver_id) with
  | some driver =>
    { code := driver.driver_code, full_name := driver.full_name, position := qr.position,
      color := (driver.color_r, driver.color_g, driver.color_b),
      q1 := pyTimeStr qr.q1_time, q2 := pyTimeStr qr.q2_time, q3 := pyTimeStr qr.q3_time }
  | none =>
    { code := "", full_name := none, position := qr.position, color := defaultColor,
      q1 := none, q2 := none, q3 := none }

/-- The stored segment rows of one result row. -/
def segRowsOf (db : DB) (qr : QualiResultRow) : List QualiTeleRow :=
  db.quali_telemetry.filter (fun t => t.result_id == qr.id)

/-- The exporter's running maximum over the segment rows of a result list. -/
def nestedMax (db : DB) (mx : ℚ) (qrs : List QualiResultRow) : ℚ :=
  qrs.foldl (fun a qr => (segRowsOf db qr).foldl (fun b row => updMax b row.max_speed) a) mx

/-- The exporter's running minimum over the segment rows of a result list. -/
def nestedMin (db : DB) (mn : ℚ) (qrs : List QualiResultRow) : ℚ :=
  qrs.foldl (fun a qr => (segRowsOf db qr).foldl (fun b row => updMin b row.min_speed) a) mn

theorem qualiLoadGo_results (db : DB) :
    ∀ (qrs : List QualiResultRow) (accR : List OutQualiResult)
      (accT : List (String × DriverQualiTele)) (mx mn : ℚ)
      (res : List OutQualiResult) (tel : List (String × DriverQualiTele)) (mx' mn' : ℚ),
    qualiLoadGo db qrs accR accT mx mn = some (res, tel, mx', mn') →
    res = accR ++ qrs.map (outResOf db) ∧ mx' = nestedMax db mx qrs ∧ mn' = nestedMin db mn qrs
  | [], accR, accT, mx, mn, res, tel, mx', mn', h => by
    rw [qualiLoadGo] at h
    injection h with h
    injection h with h1 h
    injection h with h2 h
    injection h with h3 h4
    simp only [nestedMax, nestedMin, List.foldl_nil, List.map_nil, List.append_nil]
    exact ⟨h1.symm, h3.symm, h4.symm⟩
  | qr :: rest, accR, accT, mx, mn, res, tel, mx', mn', h => by
    rw [qualiLoadGo] at h
    cases hfind : db.drivers.find? (fun d => d.id == qr.driver_id) with
    | none =>
      rw [hfind] at h
      exact absurd h (by simp)
    | some driver =>
      rw [hfind] at h
      obtain ⟨h1, h2, h3⟩ := qualiLoadGo_results db rest _ _ _ _ res tel mx' mn' h
      refine ⟨?_, ?_, ?_⟩
      · rw [h1, List.map_cons, List.append_assoc, List.singleton_append]
        simp only [outResOf, hfind]
      · rw [h2]
        rfl
      · rw [h3]
        rfl

theorem specMaxPos_nonneg : ∀ l : List (Option ℚ), 0 ≤ specMaxPos l
  | [] => le_refl 0
  | none :: xs => specMaxPos_nonneg xs
  | some m :: xs => by
    simp only [specMaxPos]
    by_cases h : 0 < m
    · rw [if_pos h]
      exact le_trans (specMaxPos_nonneg xs) (le_max_right m (specMaxPos xs))
    · rw [if_neg h]
      exact specMaxPos_nonneg xs

theorem foldl_updMax : ∀ (l : List (Option ℚ)) (c : ℚ), 0 ≤ c →
    l.foldl updMax c = max c (specMaxPos l)
  | [], c, hc => by
    rw [List.foldl_nil]
    simp only [specMaxPos]
    exact (max_eq_left hc).symm
  | none :: xs, c, hc => by
    rw [List.foldl_cons]
    simp only [updMax, specMaxPos]
    exact foldl_updMax xs c hc
  | some m :: xs, c, hc => by
    rw [List.foldl_cons]
    by_cases hm : 0 < m
    · have hstep : updMax c (some m) = max c m := by
        simp only [updMax]
        by_cases hcm : c < m
        · rw [if_pos ⟨ne_of_gt hm, hcm⟩]
          exact (max_eq_right (le_of_lt hcm)).symm
        · rw [if_neg (fun hand => hcm hand.2)]
          exact (max_eq_left (le_of_not_lt hcm)).symm
      rw [hstep, foldl_updMax xs (max c m) (le_trans hc (le_max_left c m))]
      simp only [specMaxPos, if_pos hm]
      rw [max_assoc]
    · have hstep : updMax c (some m) = c := by
        simp only [updMax]
        apply if_neg
        rintro ⟨hm0, hcm⟩
        have : m < 0 := lt_of_le_of_ne (le_of_not_lt hm) hm0
        exact absurd (lt_trans hcm this) (not_lt_of_le hc)
      rw [hstep, foldl_updMax xs c hc]
      simp only [specMaxPos, if_neg hm]

theorem foldl_updMin_ne : ∀ (l : List (Option ℚ)) (c : ℚ), c ≠ 0 →
    l.foldl updMin c = (match specMinNZ l with | none => c | some n => min c n)
  | [], c, _ => by
    rw [List.foldl_nil]
    simp only [specMinNZ]
  | none :: xs, c, hc => by
    rw [List.foldl_cons]
    simp only [updMin, specMinNZ]
    exact foldl_updMin_ne xs c hc
  | some m :: xs, c, hc => by
    rw [List.foldl_cons]
    by_cases hm : m = 0
    · have hstep : updMin c (some m) = c := by
        simp only [updMin]
        exact if_neg (fun hand => hand.1 hm)
      rw [hstep, foldl_updMin_ne xs c hc]
      simp only [specMinNZ, if_pos hm]
    · have hstep : updMin c (some m) = min c m := by
        simp only [updMin]
        by_cases hmc : m < c
        · rw [if_pos ⟨hm, Or.inl hmc⟩]
          exact (min_eq_right (le_of_lt hmc)).symm
        · rw [if_neg ?_]
          · exact (min_eq_left (le_of_not_lt hmc)).symm
          · rintro ⟨-, hor⟩
            rcases hor with h1 | h1
            · exact hmc h1
            · exact hc h1
      have hmin : min c m ≠ 0 := by
        rcases min_cases c m with ⟨he, -⟩ | ⟨he, -⟩
        · rw [he]; exact hc
        · rw [he]; exact hm
      rw [hstep, foldl_updMin_ne xs (min c m) hmin]
      simp only [specMinNZ, if_neg hm]
      cases hs : specMinNZ xs with
      | none => rfl
      | some n =>
        simp only []
        rw [min_assoc]

theorem foldl_updMin_zero : ∀ (l : List (Option ℚ)),
    l.foldl updMin 0 = (specMinNZ l).getD 0
  | [] => rfl
  | none :: xs => by
    rw [List.foldl_cons]
    simp only [updMin, specMinNZ]
    exact foldl_updMin_zero xs
  | some m :: xs => by
    rw [List.foldl_cons]
    by_cases hm : m = 0
    · have hstep : updMin 0 (some m) = 0 := by
        simp only [updMin]
        exact if_neg (fun hand => hand.1 hm)
      rw [hstep, foldl_updMin_zero xs]
      simp only [specMinNZ, if_pos hm]
    · have hstep : updMin 0 (some m) = m := by
        simp only [updMin]
        exact if_pos ⟨hm, by simp⟩
      rw [hstep, foldl_updMin_ne xs m hm]
      simp only [specMinNZ, if_neg hm]
      cases hs : specMinNZ xs with
      | none => rfl
      | some n => rfl

theorem nestedMax_flat (db : DB) : ∀ (qrs : List QualiResultRow) (mx : ℚ),
    nestedMax db mx qrs = ((segRowsOfResults db qrs).map (fun row => row.max_speed)).foldl updMax mx
  | [], mx => rfl
  | qr :: rest, mx => by
    rw [nestedMax, List.foldl_cons]
    have h1 : segRowsOfResults db (qr :: rest)
        = segRowsOf db qr ++ segRowsOfResults db rest := by
      simp [segRowsOfResults, segRowsOf]
    rw [h1, List.map_append, List.foldl_append]
    have h2 : (segRowsOf db qr).foldl (fun b row => updMax b row.max_speed) mx
        = ((segRowsOf db qr).map (fun row => row.max_speed)).foldl updMax mx := by
      rw [List.foldl_map]
    have h3 := nestedMax_flat db rest ((segRowsOf db qr).foldl (fun b row => updMax b row.max_speed) mx)
    rw [nestedMax] at h3
    rw [← h2]
    exact h3

theorem nestedMin_flat (db : DB) : ∀ (qrs : List QualiResultRow) (mn : ℚ),
    nestedMin db mn qrs = ((segRowsOfResults db qrs).map (fun row => row.min_speed)).foldl updMin mn
  | [], mn => rfl
  | qr :: rest, mn => by
    rw [nestedMin, List.foldl_cons]
    have h1 : segRowsOfResults db (qr :: rest)
        = segRowsOf db qr ++ segRowsOfResults db rest := by
      simp [segRowsOfResults, segRowsOf]
    rw [h1, List.map_append, List.foldl_append]
    have h2 : (segRowsOf db qr).foldl (fun b row => updMin b row.min_speed) mn
        = ((segRowsOf db qr).map (fun row => row.min_speed)).foldl updMin mn := by
      rw [List.foldl_map]
    have h3 := nestedMin_flat db rest ((segRowsOf db qr).foldl (fun b row => updMin b row.min_speed) mn)
    rw [nestedMin] at h3
    rw [← h2]
    exact h3

/-- Claim C4 (amended): the exported session-wide `max_speed` is the maximum
of the *positive* stored segment max speeds (0.0 when none), and
`min_speed` is the minimum of the *nonzero* stored segment min speeds (0.0
when none): a stored null or `0.0` value is falsy in the running update and
is skipped, so a true minimum of exactly 0.0 never becomes the aggregate. -/
theorem c4_speed_aggregates (db : DB) (y r : Int) (st : String) (out : LoadedQuali)
    (h : loadQualifyingTelemetry db y r st = some out) :
    ∃ s, findSession db y r st = some s ∧
      out.max_speed = specMaxPos ((segRowsOfResults db (sortedResultsOf db s.id)).map
        (fun row => row.max_speed)) ∧
      out.min_speed = (specMinNZ ((segRowsOfResults db (sortedResultsOf db s.id)).map
        (fun row => row.min_speed))).getD 0 := by
  simp only [loadQualifyingTelemetry] at h
  cases hfind : findSession db y r st with
  | none =>
    rw [hfind] at h
    exact absurd h (by simp)
  | some s =>
    simp only [hfind] at h
    cases hgo : qualiLoadGo db
        (List.insertionSort resultLe (db.quali_results.filter (fun q => q.session_id == s.id)))
        [] [] 0 0 with
    | none =>
      rw [hgo] at h
      exact absurd h (by simp)
    | some tup =>
      obtain ⟨res, tel, mx, mn⟩ := tup
      rw [hgo] at h
      injection h with h
      obtain ⟨-, hmx, hmn⟩ := qualiLoadGo_results db _ [] [] 0 0 res tel mx mn hgo
      refine ⟨s, rfl, ?_, ?_⟩
      · rw [← h]
        show mx = _
        rw [hmx, nestedMax_flat db _ 0, foldl_updMax _ 0 (le_refl 0)]
        exact max_eq_right (specMaxPos_nonneg _)
      · rw [← h]
        show mn = _
        rw [hmn, nestedMin_flat db _ 0, foldl_updMin_zero]
        rfl

/-- A qualifying payload whose stored segment minimum speeds are exactly
`0.0` (Q1) and `50.0` (Q2). -/
def qpZero : QualiPayload :=
  { results := [⟨"VER", none, some (1, 2, 3), 1, none, none, none⟩],
    telemetry := [("VER",
      [("Q1", ⟨[qsample0], some 300, some 0, none, none, none⟩),
       ("Q2", ⟨[qsample0], some 280, some 50, none, none, none⟩)])] }

/-- The store holding `qpZero`. -/
def c4db : DB := (saveQualifyingTelemetry emptyDB 2024 1 "Q" info0 qpZero).2

/-- Claim C4 counterexample: with stored segment minimum speeds `[0.0, 50.0]`
the claim requires the exported session minimum to be their minimum `0.0`,
but the exporter returns `50.0`: the truthiness guard skips the stored
`0.0`. -/
theorem c4_counterexample :
    (loadQualifyingTelemetry c4db 2024 1 "Q").map (fun o => o.min_speed) = some 50 ∧
    c4db.quali_telemetry.map (fun row => row.min_speed) = [some 0, some 50] ∧
    minimumAll (c4db.quali_telemetry.map (fun row => row.min_speed)) = some 0 := by
  decide

/-- The loaded qualifying dictionary for the `qpZero` store. -/
def c4out : LoadedQuali := (loadQualifyingTelemetry c4db 2024 1 "Q").getD ⟨[], [], 0, 0⟩

theorem c4_witness :
    ∃ s, findSession c4db 2024 1 "Q" = some s ∧
      c4out.max_speed = specMaxPos ((segRowsOfResults c4db (sortedResultsOf c4db s.id)).map
        (fun row => row.max_speed)) ∧
      c4out.min_speed = (specMinNZ ((segRowsOfResults c4db (sortedResultsOf c4db s.id)).map
        (fun row => row.min_speed))).getD 0 :=
  c4_speed_aggregates c4db 2024 1 "Q" c4out (by decide)

theorem qualiRows_find_aux (sid : Nat) (tele : List (String × List (String × SegIn))) :
    ∀ (l : List QResultIn) (did j : Nat) (hj : j < l.length),
    ((qualiRows sid tele did l).1).find? (fun d => d.id == did + 2 * j)
      = some (qualiDriverRow sid (did + 2 * j) (l.get ⟨j, hj⟩))
  | [], _, j, hj => absurd hj (Nat.not_lt_zero j)
  | res :: rest, did, 0, hj => by
    simp only [qualiRows]
    rw [List.find?_cons]
    have hb : ((qualiDriverRow sid did res).id == did + 2 * 0) = true := by
      simp [qualiDriverRow]
    rw [hb]
    rfl
  | res :: rest, did, j + 1, hj => by
    simp only [qualiRows]
    rw [List.find?_cons]
    have hb : ((qualiDriverRow sid did res).id == did + 2 * (j + 1)) = false := by
      simp only [qualiDriverRow, beq_eq_false_iff_ne, ne_eq]
      omega
    rw [hb]
    have h := qualiRows_find_aux sid tele rest (did + 2) j (Nat.lt_of_succ_lt_succ hj)
    have h2 : did + 2 + 2 * j = did + 2 * (j + 1) := by omega
    rw [h2] at h
    exact h

theorem qualiRows_qr (sid : Nat) (tele : List (String × List (String × SegIn))) :
    ∀ (l : List QResultIn) (did : Nat), ∀ qr ∈ (qualiRows sid tele did l).2.1,
    ∃ j, ∃ (hj : j < l.length), qr = qualiResultRow sid (did + 2 * j) (l.get ⟨j, hj⟩)
  | [], _, qr, hqr => absurd hqr (by simp [qualiRows])
  | res :: rest, did, qr, hqr => by
    simp only [qualiRows] at hqr
    rcases List.mem_cons.mp hqr with h | h
    · exact ⟨0, Nat.succ_pos rest.length, h⟩
    · obtain ⟨j, hj, hh⟩ := qualiRows_qr sid tele rest (did + 2) qr h
      refine ⟨j + 1, Nat.succ_lt_succ hj, ?_⟩
      rw [hh, show did + 2 + 2 * j = did + 2 * (j + 1) from by omega]
      rfl

theorem qualiRows_pairwise (sid : Nat) (tele : List (String × List (String × SegIn))) :
    ∀ (l : List QResultIn) (did : Nat),
    l.Pairwise (fun a b => a.position ≤ b.position) →
    ((qualiRows sid tele did l).2.1).Pairwise resultLe
  | [], _, _ => List.Pairwise.nil
  | res :: rest, did, h => by
    simp only [qualiRows]
    obtain ⟨hall, htail⟩ := List.pairwise_cons.mp h
    refine List.Pairwise.cons ?_ (qualiRows_pairwise sid tele rest (did + 2) htail)
    intro x hx
    obtain ⟨j, hj, hh⟩ := qualiRows_qr sid tele rest (did + 2) x hx
    show (qualiResultRow sid did res).position ≤ x.position
    rw [hh]
    exact hall (rest.get ⟨j, hj⟩) (rest.get_mem j hj)

/-- The exported result entry the qualifying round trip is expected to
return for an imported result entry. -/
def qTimeStrOut (t : Option String) : Option String := pyTimeStr (qTimeParse t).join

def expectedQResult (res : QResultIn) : OutQualiResult :=
  { code := res.code, full_name := res.full_name, position := res.position,
    color := res.color.getD defaultColor,
    q1 := qTimeStrOut res.q1, q2 := qTimeStrOut res.q2, q3 := qTimeStrOut res.q3 }

theorem map_outRes (dbx : DB) (sid : Nat) (tele : List (String × List (String × SegIn))) :
    ∀ (l : List QResultIn) (did : Nat),
    (∀ (j : Nat) (hj : j < l.length),
      dbx.drivers.find? (fun d => d.id == did + 2 * j)
        = some (qualiDriverRow sid (did + 2 * j) (l.get ⟨j, hj⟩))) →
    ((qualiRows sid tele did l).2.1).map (outResOf dbx) = l.map expectedQResult
  | [], _, _ => rfl
  | res :: rest, did, hfind => by
    simp only [qualiRows, List.map_cons]
    have h0 : dbx.drivers.find? (fun d => d.id == did) = some (qualiDriverRow sid did res) :=
      hfind 0 (Nat.succ_pos rest.length)
    have hhead : outResOf dbx (qualiResultRow sid did res) = expectedQResult res := by
      simp only [outResOf]
      have hdid : (qualiResultRow sid did res).driver_id = did := rfl
      rw [hdid, h0]
      rfl
    have htail := map_outRes dbx sid tele rest (did + 2) (fun j hj => by
      have h := hfind (j + 1) (Nat.succ_lt_succ hj)
      have h2 : did + 2 * (j + 1) = did + 2 + 2 * j := by omega
      rw [h2] at h
      exact h)
    rw [hhead, htail]

/-- A supplied lap-time field round-trips through float storage: it is
absent, or it is the canonical decimal string of a nonzero value (`str()`
of its parsed float gives the string back). -/
def timeRT : Option String → Bool
  | none => true
  | some s =>
    match floatOfString s with
    | none => false
    | some q => decide (¬ q = 0) && (ratToPyStr q == s)

theorem timeRT_parseOk (t : Option String) (h : timeRT t = true) : (qTimeParse t).isSome = true := by
  cases t with
  | none => rfl
  | some s =>
    rw [qTimeParse]
    by_cases hs : s = ""
    · rw [if_pos hs]
      rfl
    · rw [if_neg hs]
      rw [timeRT] at h
      cases hf : floatOfString s with
      | none => rw [hf] at h; exact absurd h (by simp)
      | some q => rfl

theorem timeRT_round (t : Option String) (h : timeRT t = true) : qTimeStrOut t = t := by
  cases t with
  | none => rfl
  | some s =>
    rw [timeRT] at h
    cases hf : floatOfString s with
    | none => rw [hf] at h; exact absurd h (by simp)
    | some q =>
      rw [hf] at h
      simp only [Bool.and_eq_true, decide_eq_true_eq, beq_iff_eq] at h
      obtain ⟨hq0, hqs⟩ := h
      have hs : s ≠ "" := by
        intro hseq
        rw [hseq] at hf
        have hemp : floatOfString "" = (none : Option ℚ) := by decide
        rw [hemp] at hf
        exact absurd hf (by simp)
      rw [qTimeStrOut, qTimeParse, if_neg hs, hf]
      show pyTimeStr (some q) = some s
      rw [pyTimeStr, if_neg hq0, hqs]

theorem qualiLoadGo_some (db : DB) :
    ∀ (qrs : List QualiResultRow) (accR : List OutQualiResult)
      (accT : List (String × DriverQualiTele)) (mx mn : ℚ),
    (∀ qr ∈ qrs, (db.drivers.find? (fun d => d.id == qr.driver_id)).isSome = true) →
    (qualiLoadGo db qrs accR accT mx mn).isSome = true
  | [], _, _, _, _, _ => rfl
  | qr :: rest, accR, accT, mx, mn, hfind => by
    rw [qualiLoadGo]
    obtain ⟨d, hd⟩ := Option.isSome_iff_exists.mp (hfind qr (List.mem_cons_self qr rest))
    rw [hd]
    exact qualiLoadGo_some db rest _ _ _ _
      (fun x hx => hfind x (List.mem_cons_of_mem qr hx))

theorem quali_results_filter (db : DB) (y r : Int) (st : String) (info : SessionInfo)
    (qp : QualiPayload) (hwf : db.wf = true) :
    (mkQualiDB db y r st info qp).quali_results.filter (fun q => q.session_id == db.nextId)
      = (qualiRows db.nextId qp.telemetry (db.nextId + 1) qp.results).2.1 := by
  obtain ⟨-, -, -, -, -, hwQ, -⟩ := wf_facts db hwf
  show (db.quali_results ++ (qualiRows db.nextId qp.telemetry (db.nextId + 1) qp.results).2.1).filter _ = _
  rw [List.filter_append]
  rw [filter_none_of _ db.quali_results (fun q hq => by
    have := (hwQ q hq).2.1
    simp only [beq_eq_false_iff_ne, ne_eq]
    omega)]
  rw [filter_all_of _ _ (fun q hq => by
    obtain ⟨j, hj, hh⟩ := qualiRows_qr db.nextId qp.telemetry qp.results (db.nextId + 1) q hq
    rw [hh]
    simp [qualiResultRow])]
  rw [List.nil_append]

theorem find_qualiDriver (db : DB) (y r : Int) (st : String) (info : SessionInfo)
    (qp : QualiPayload) (hwf : db.wf = true) :
    ∀ (j : Nat) (hj : j < qp.results.length),
    (mkQualiDB db y r st info qp).drivers.find? (fun d => d.id == db.nextId + 1 + 2 * j)
      = some (qualiDriverRow db.nextId (db.nextId + 1 + 2 * j) (qp.results.get ⟨j, hj⟩)) := by
  intro j hj
  obtain ⟨-, hwD, -, -, -, -, -⟩ := wf_facts db hwf
  show (db.drivers ++ (qualiRows db.nextId qp.telemetry (db.nextId + 1) qp.results).1).find? _ = _
  rw [find?_append_none _ _ _ (List.find?_eq_none.mpr (fun d hd => by
    have := (hwD d hd).1
    simp only [beq_iff_eq]
    omega))]
  exact qualiRows_find_aux db.nextId qp.telemetry qp.results (db.nextId + 1) j hj

/-- Claim C7 (amended): lap times supplied as canonical decimal strings of
nonzero values (or absent) round-trip exactly: export returns the same
string when present and absent when absent; a supplied time that parses to
`0.0` would instead be exported as absent (see the counterexample). -/
theorem c7_time_round_trip (db : DB) (y r : Int) (st : String) (info : SessionInfo)
    (qp : QualiPayload) (hwf : db.wf = true) (hfresh : findSession db y r st = none)
    (hsorted : chainLeBy (fun res => ((res.position : ℚ))) qp.results = true)
    (hrt : ∀ res ∈ qp.results,
      timeRT res.q1 = true ∧ timeRT res.q2 = true ∧ timeRT res.q3 = true) :
    ∃ out, loadQualifyingTelemetry (saveQualifyingTelemetry db y r st info qp).2 y r st
        = some out ∧
      out.results.map (fun e => (e.code, e.q1, e.q2, e.q3))
        = qp.results.map (fun res => (res.code, res.q1, res.q2, res.q3)) := by
  have hok : ∀ res ∈ qp.results, parseOkRes res = true := by
    intro res hres
    obtain ⟨h1, h2, h3⟩ := hrt res hres
    rw [parseOkRes, Bool.and_eq_true, Bool.and_eq_true]
    exact ⟨⟨timeRT_parseOk _ h1, timeRT_parseOk _ h2⟩, timeRT_parseOk _ h3⟩
  rw [saveQuali_eq db y r st info qp hfresh hok]
  simp only [loadQualifyingTelemetry, findSession_mkQualiDB db y r st info qp hfresh]
  have hsid : (sessionRowOfQuali db.nextId y r st info).id = db.nextId := rfl
  rw [hsid, quali_results_filter db y r st info qp hwf]
  have hsorted2 : ((qualiRows db.nextId qp.telemetry (db.nextId + 1) qp.results).2.1).Pairwise resultLe := by
    apply qualiRows_pairwise
    exact ((chainLeBy_pairwise _ _ hsorted).imp (fun hab => Int.cast_le.mp hab))
  rw [List.Sorted.insertionSort_eq hsorted2]
  have hfindall : ∀ qr ∈ (qualiRows db.nextId qp.telemetry (db.nextId + 1) qp.results).2.1,
      ((mkQualiDB db y r st info qp).drivers.find? (fun d => d.id == qr.driver_id)).isSome = true := by
    intro qr hqr
    obtain ⟨j, hj, hh⟩ := qualiRows_qr db.nextId qp.telemetry qp.results (db.nextId + 1) qr hqr
    have hdid : qr.driver_id = db.nextId + 1 + 2 * j := by rw [hh]; rfl
    rw [hdid, find_qualiDriver db y r st info qp hwf j hj]
    rfl
  have hsome := qualiLoadGo_some (mkQualiDB db y r st info qp)
    (qualiRows db.nextId qp.telemetry (db.nextId + 1) qp.results).2.1 [] [] 0 0 hfindall
  obtain ⟨tup, htup⟩ := Option.isSome_iff_exists.mp hsome
  obtain ⟨res, tel, mx, mn⟩ := tup
  rw [htup]
  refine ⟨_, rfl, ?_⟩
  obtain ⟨hres, -, -⟩ := qualiLoadGo_results _ _ [] [] 0 0 res tel mx mn htup
  rw [hres, List.nil_append]
  rw [map_outRes (mkQualiDB db y r st info qp) db.nextId qp.telemetry qp.results (db.nextId + 1)
    (find_qualiDriver db y r st info qp hwf)]
  rw [List.map_map]
  apply List.map_congr_left
  intro res hres2
  obtain ⟨h1, h2, h3⟩ := hrt res hres2
  show ((expectedQResult res).code, (expectedQResult res).q1, (expectedQResult res).q2,
    (expectedQResult res).q3) = (res.code, res.q1, res.q2, res.q3)
  rw [expectedQResult]
  simp only []
  rw [timeRT_round _ h1, timeRT_round _ h2, timeRT_round _ h3]

/-- A qualifying payload whose lap time `"0.0"` is present at import. -/
def qpZeroTime : QualiPayload :=
  { results := [⟨"VER", none, some (1, 2, 3), 1, some "0.0", none, none⟩], telemetry := [] }

/-- The store holding `qpZeroTime`. -/
def c7db : DB := (saveQualifyingTelemetry emptyDB 2024 1 "Q" info0 qpZeroTime).2

unseal Rat.add Rat.mul Rat.inv Rat.sub in
/-- Claim C7 counterexample: a lap time supplied as the string `"0.0"` is
present at import but exported as absent — `str(q1_time) if q1_time` treats
the stored float `0.0` as falsy — so export does not return every lap time
in the representation supplied at import. -/
theorem c7_counterexample :
    qpZeroTime.results.map (fun res => res.q1) = [some "0.0"] ∧
    (loadQualifyingTelemetry c7db 2024 1 "Q").map (fun o => o.results.map (fun e => e.q1))
      = some [none] := by
  decide

unseal Rat.add Rat.mul Rat.inv Rat.sub in
theorem c7_witness :
    ∃ out, loadQualifyingTelemetry (saveQualifyingTelemetry emptyDB 2024 1 "Q" info0 qp0).2
        2024 1 "Q" = some out ∧
      out.results.map (fun e => (e.code, e.q1, e.q2, e.q3))
        = qp0.results.map (fun res => (res.code, res.q1, res.q2, res.q3)) :=
  c7_time_round_trip emptyDB 2024 1 "Q" info0 qp0 (by decide) (by decide) (by decide) (by decide)

/-- Claim C8: export (race and qualifying) and the existence check on a
natural key with no stored session return the explicit absent results
(`none` / `false`); in this total model no fault is possible. -/
theorem c8_absent_key (db : DB) (y r : Int) (st : String)
    (h : ∀ s ∈ db.sessions, ¬(s.year = y ∧ s.round_number = r ∧ s.session_type = st)) :
    checkSessionExists db y r st = false ∧ loadRaceTelemetry db y r st = none ∧
    loadQualifyingTelemetry db y r st = none := by
  have hfind : findSession db y r st = none := by
    rw [findSession]
    apply List.find?_eq_none.mpr
    intro s hs
    simp only [Bool.and_eq_true, beq_iff_eq]
    rintro ⟨⟨h1, h2⟩, h3⟩
    exact h s hs ⟨h1, h2, h3⟩
  refine ⟨?_, ?_, ?_⟩
  · rw [checkSessionExists, hfind]
    rfl
  · simp only [loadRaceTelemetry, hfind]
  · simp only [loadQualifyingTelemetry, hfind]

theorem c8_witness :
    checkSessionExists emptyDB 2024 1 "R" = false ∧
    loadRaceTelemetry emptyDB 2024 1 "R" = none ∧
    loadQualifyingTelemetry emptyDB 2024 1 "R" = none :=
  c8_absent_key emptyDB 2024 1 "R" (by decide)

instance : IsTotal FrameRow frameLe := ⟨fun a b => le_total a.time b.time⟩

instance : IsTrans FrameRow frameLe := ⟨fun _ _ _ h1 h2 => le_trans h1 h2⟩

instance : IsTotal TrackStatusRow statusLe := ⟨fun a b => le_total a.start_time b.start_time⟩

instance : IsTrans TrackStatusRow statusLe := ⟨fun _ _ _ h1 h2 => le_trans h1 h2⟩

instance : IsTotal QualiResultRow resultLe := ⟨fun a b => le_total a.position b.position⟩

instance : IsTrans QualiResultRow resultLe := ⟨fun _ _ _ h1 h2 => le_trans h1 h2⟩

instance : IsTotal SessionRow catalogLe := by
  refine ⟨fun a b => ?_⟩
  rw [catalogLe, catalogLe]
  rcases lt_trichotomy a.year b.year with h | h | h
  · exact Or.inr (Or.inl h)
  · rcases le_total b.round_number a.round_number with hr | hr
    · exact Or.inl (Or.inr ⟨h, hr⟩)
    · exact Or.inr (Or.inr ⟨h.symm, hr⟩)
  · exact Or.inl (Or.inl h)

instance : IsTrans SessionRow catalogLe := by
  refine ⟨fun a b c h1 h2 => ?_⟩
  rw [catalogLe] at h1 h2 ⊢
  rcases h1 with h1 | ⟨h1, h1r⟩ <;> rcases h2 with h2 | ⟨h2, h2r⟩
  · exact Or.inl (by omega)
  · exact Or.inl (by omega)
  · exact Or.inl (by omega)
  · exact Or.inr ⟨by omega, by omega⟩

theorem outResOf_position (db : DB) (qr : QualiResultRow) :
    (outResOf db qr).position = qr.position := by
  simp only [outResOf]
  cases db.drivers.find? (fun d => d.id == qr.driver_id) with
  | none => rfl
  | some d => rfl

/-- Claim C9 (amended): exported race frames are sorted by time
non-decreasing (not necessarily strictly: stored frames may share a time),
exported track statuses are sorted by start time, exported qualifying
results are sorted by final position, and the catalog is sorted by year
descending then round descending. -/
theorem c9_export_orderings :
    (∀ (db : DB) (y r : Int) (st : String) (out : LoadedRace),
      loadRaceTelemetry db y r st = some out →
      (out.frames.map (fun g => g.t)).Pairwise (fun a b => a ≤ b) ∧
      (out.track_statuses.map (fun ts => ts.start_time)).Pairwise (fun a b => a ≤ b)) ∧
    (∀ (db : DB) (y r : Int) (st : String) (out : LoadedQuali),
      loadQualifyingTelemetry db y r st = some out →
      (out.results.map (fun e => e.position)).Pairwise (fun a b => a ≤ b)) ∧
    (∀ db : DB, (getAllSessions db).Pairwise
      (fun a b => b.year < a.year ∨ (a.year = b.year ∧ b.round ≤ a.round))) := by
  refine ⟨fun db y r st out h => ?_, fun db y r st out h => ?_, fun db => ?_⟩
  · simp only [loadRaceTelemetry] at h
    cases hfind : findSession db y r st with
    | none =>
      rw [hfind] at h
      exact absurd h (by simp)
    | some s =>
      simp only [hfind] at h
      injection h with h
      rw [← h]
      constructor
      · show ((List.insertionSort frameLe _).map _ |>.map _).Pairwise _
        rw [List.map_map]
        apply List.pairwise_map.mpr
        exact (List.sorted_insertionSort frameLe _).imp (fun hab => hab)
      · show ((List.insertionSort statusLe _).map _ |>.map _).Pairwise _
        rw [List.map_map]
        apply List.pairwise_map.mpr
        exact (List.sorted_insertionSort statusLe _).imp (fun hab => hab)
  · simp only [loadQualifyingTelemetry] at h
    cases hfind : findSession db y r st with
    | none =>
      rw [hfind] at h
      exact absurd h (by simp)
    | some s =>
      simp only [hfind] at h
      cases hgo : qualiLoadGo db
          (List.insertionSort resultLe (db.quali_results.filter (fun q => q.session_id == s.id)))
          [] [] 0 0 with
      | none =>
        rw [hgo] at h
        exact absurd h (by simp)
      | some tup =>
        obtain ⟨res, tel, mx, mn⟩ := tup
        rw [hgo] at h
        injection h with h
        rw [← h]
        obtain ⟨hres, -, -⟩ := qualiLoadGo_results db _ [] [] 0 0 res tel mx mn hgo
        show (res.map (fun e => e.position)).Pairwise _
        rw [hres, List.nil_append, List.map_map]
        apply List.pairwise_map.mpr
        refine (List.sorted_insertionSort resultLe _).imp (fun hab => ?_)
        show (outResOf db _).position ≤ (outResOf db _).position
        rw [outResOf_position, outResOf_position]
        exact hab
  · rw [getAllSessions]
    apply List.pairwise_map.mpr
    exact (List.sorted_insertionSort catalogLe _).imp (fun hab => hab)

/-- A race payload with two frames sharing the same timestamp. -/
def pDup : RacePayload :=
  ⟨[⟨some 5, some 1, none, [("VER", sampleB)]⟩, ⟨some 5, some 2, none, [("VER", sampleB)]⟩],
    [("VER", (1, 2, 3))], [], 3⟩

/-- The store holding `pDup`. -/
def c9db : DB := (saveRaceTelemetry emptyDB 2024 1 "R" info0 pDup none).2

/-- Claim C9 counterexample: a stored session can hold two frames with the
same time, and the exported frame list is then not *strictly* ordered by
time ascending (only non-decreasing). -/
theorem c9_counterexample :
    (loadRaceTelemetry c9db 2024 1 "R").map (fun o => o.frames.length) = some 2 ∧
    (loadRaceTelemetry c9db 2024 1 "R").map (fun o => chainLtQ (o.frames.map (fun g => g.t)))
      = some false := by
  decide

/-- The exported race dictionary of the two-frame store `dbR1`. -/
def outR9 : LoadedRace := (loadRaceTelemetry dbR1 2024 1 "R").getD ⟨[], [], [], none⟩

/-- The exported qualifying dictionary of the store `dbQ1`. -/
def outQ9 : LoadedQuali := (loadQualifyingTelemetry dbQ1 2024 1 "Q").getD ⟨[], [], 0, 0⟩

unseal Rat.add Rat.mul Rat.inv Rat.sub in
theorem c9_witness :
    ((outR9.frames.map (fun g => g.t)).Pairwise (fun a b => a ≤ b) ∧
      (outR9.track_statuses.map (fun ts => ts.start_time)).Pairwise (fun a b => a ≤ b)) ∧
    (outQ9.results.map (fun e => e.position)).Pairwise (fun a b => a ≤ b) ∧
    (getAllSessions dbR1).Pairwise
      (fun a b => b.year < a.year ∨ (a.year = b.year ∧ b.round ≤ a.round)) :=
  ⟨c9_export_orderings.1 dbR1 2024 1 "R" outR9 (by decide),
   c9_export_orderings.2.1 dbQ1 2024 1 "Q" outQ9 (by decide),
   c9_export_orderings.2.2 dbR1⟩

theorem driverRowsFrom_mem_code (sid : Nat) (colors : List (String × (Int × Int × Int))) :
    ∀ (codes : List String) (did : Nat) (c : String), c ∈ codes →
    ∃ d, d ∈ driverRowsFrom sid colors did codes ∧ d.driver_code = c ∧
      (d.color_r, d.color_g, d.color_b) = (colors.lookup c).getD defaultColor
  | [], _, c, hc => absurd hc (List.not_mem_nil c)
  | x :: xs, did, c, hc => by
    rw [driverRowsFrom]
    by_cases hcx : c = x
    · subst hcx
      exact ⟨mkDriverRow sid did c colors, List.mem_cons_self _ _, rfl, rfl⟩
    · obtain ⟨d, hd1, hd2, hd3⟩ :=
        driverRowsFrom_mem_code sid colors xs (did + 1) c ((List.mem_cons.mp hc).resolve_left hcx)
      exact ⟨d, List.mem_cons_of_mem _ hd1, hd2, hd3⟩

theorem qualiRows_mem_driver (sid : Nat) (tele : List (String × List (String × SegIn))) :
    ∀ (l : List QResultIn) (did : Nat) (res : QResultIn), res ∈ l →
    ∃ d, d ∈ (qualiRows sid tele did l).1 ∧ d.driver_code = res.code ∧
      (d.color_r, d.color_g, d.color_b) = res.color.getD defaultColor
  | [], _, res, hres => absurd hres (List.not_mem_nil res)
  | x :: xs, did, res, hres => by
    simp only [qualiRows]
    rcases List.mem_cons.mp hres with h | h
    · subst h
      exact ⟨qualiDriverRow sid did res, List.mem_cons_self _ _, rfl, rfl⟩
    · obtain ⟨d, hd1, hd2, hd3⟩ := qualiRows_mem_driver sid tele xs (did + 2) res h
      exact ⟨d, List.mem_cons_of_mem _ hd1, hd2, hd3⟩

theorem qualiRows_index_mem (sid : Nat) (tele : List (String × List (String × SegIn))) :
    ∀ (l : List QResultIn) (did j : Nat) (hj : j < l.length),
    qualiResultRow sid (did + 2 * j) (l.get ⟨j, hj⟩) ∈ (qualiRows sid tele did l).2.1
  | [], _, j, hj => absurd hj (Nat.not_lt_zero j)
  | x :: xs, did, 0, hj => by
    simp only [qualiRows]
    exact List.mem_cons_self _ _
  | x :: xs, did, j + 1, hj => by
    simp only [qualiRows]
    apply List.mem_cons_of_mem
    have h := qualiRows_index_mem sid tele xs (did + 2) j (Nat.lt_of_succ_lt_succ hj)
    have h2 : did + 2 + 2 * j = did + 2 * (j + 1) := by omega
    rw [h2] at h
    exact h

/-- Claim C10: a driver code with no entry in the supplied color mapping is
stored, and later exported, with the default RGB color (128, 128, 128) — by
the race importer (`driver_colors.get(code, (128,128,128))`) and by the
qualifying importer (`result_data.get('color', (128,128,128))`). -/
theorem c10_default_color :
    (∀ (db : DB) (y r : Int) (st : String) (info : SessionInfo) (p : RacePayload)
      (f0 : InFrame) (rest : List InFrame) (c : String),
      db.wf = true → findSession db y r st = none → (∀ f ∈ p.frames, f.t.isSome) →
      p.frames = f0 :: rest → c ∈ f0.drivers.map Prod.fst → p.driver_colors.lookup c = none →
      (∃ d, d ∈ (saveRaceTelemetry db y r st info p none).2.drivers ∧
        d.driver_code = c ∧ (d.color_r, d.color_g, d.color_b) = defaultColor) ∧
      ∃ out, loadRaceTelemetry (saveRaceTelemetry db y r st info p none).2 y r st = some out ∧
        out.driver_colors.lookup c = some defaultColor) ∧
    (∀ (db : DB) (y r : Int) (st : String) (info : SessionInfo) (qp : QualiPayload)
      (res : QResultIn),
      db.wf = true → findSession db y r st = none →
      (∀ x ∈ qp.results, parseOkRes x = true) → res ∈ qp.results → res.color = none →
      (∃ d, d ∈ (saveQualifyingTelemetry db y r st info qp).2.drivers ∧
        d.driver_code = res.code ∧ (d.color_r, d.color_g, d.color_b) = defaultColor) ∧
      ∃ out, loadQualifyingTelemetry (saveQualifyingTelemetry db y r st info qp).2 y r st
          = some out ∧
        ∃ e, e ∈ out.results ∧ e.code = res.code ∧ e.color = defaultColor) := by
  constructor
  · intro db y r st info p f0 rest c hwf hfresh hT hp hc hno
    have hne : p.frames ≠ [] := by rw [hp]; simp
    rw [saveRace_eq db y r st info p hfresh hne hT]
    have hcodes0 : firstFrameCodes p = f0.drivers.map Prod.fst := by
      rw [firstFrameCodes, hp]
    have hcmem : c ∈ firstFrameCodes p := by rw [hcodes0]; exact hc
    constructor
    · obtain ⟨d, hd1, hd2, hd3⟩ :=
        driverRowsFrom_mem_code db.nextId p.driver_colors (firstFrameCodes p) (db.nextId + 1) c hcmem
      refine ⟨d, ?_, hd2, ?_⟩
      · show d ∈ db.drivers ++ _
        exact List.mem_append_right _ hd1
      · rw [hd3, hno]
        rfl
    · simp only [loadRaceTelemetry, findSession_mkRaceDB db y r st info p hfresh]
      refine ⟨_, rfl, ?_⟩
      have hsid : (sessionRowOfRace db.nextId y r st info p).id = db.nextId := rfl
      rw [hsid, drivers_filter_mkRaceDB db y r st info p hwf, driverRowsFrom_colors]
      rw [lookup_map_key (fun c => (p.driver_colors.lookup c).getD defaultColor) c
        (firstFrameCodes p) hcmem]
      rw [hno]
      rfl
  · intro db y r st info qp res hwf hfresh hok hres hcol
    rw [saveQuali_eq db y r st info qp hfresh hok]
    constructor
    · obtain ⟨d, hd1, hd2, hd3⟩ :=
        qualiRows_mem_driver db.nextId qp.telemetry qp.results (db.nextId + 1) res hres
      refine ⟨d, ?_, hd2, ?_⟩
      · show d ∈ db.drivers ++ _
        exact List.mem_append_right _ hd1
      · rw [hd3, hcol]
        rfl
    · simp only [loadQualifyingTelemetry, findSession_mkQualiDB db y r st info qp hfresh]
      have hsid : (sessionRowOfQuali db.nextId y r st info).id = db.nextId := rfl
      rw [hsid, quali_results_filter db y r st info qp hwf]
      have hfindall : ∀ qr ∈ List.insertionSort resultLe
          (qualiRows db.nextId qp.telemetry (db.nextId + 1) qp.results).2.1,
          ((mkQualiDB db y r st info qp).drivers.find? (fun d => d.id == qr.driver_id)).isSome
            = true := by
        intro qr hqr
        have hqr2 : qr ∈ (qualiRows db.nextId qp.telemetry (db.nextId + 1) qp.results).2.1 :=
          (List.perm_insertionSort resultLe _).mem_iff.mp hqr
        obtain ⟨j, hj, hh⟩ := qualiRows_qr db.nextId qp.telemetry qp.results (db.nextId + 1) qr hqr2
        have hdid : qr.driver_id = db.nextId + 1 + 2 * j := by rw [hh]; rfl
        rw [hdid, find_qualiDriver db y r st info qp hwf j hj]
        rfl
      have hsome := qualiLoadGo_some (mkQualiDB db y r st info qp)
        (List.insertionSort resultLe (qualiRows db.nextId qp.telemetry (db.nextId + 1) qp.results).2.1)
        [] [] 0 0 hfindall
      obtain ⟨tup, htup⟩ := Option.isSome_iff_exists.mp hsome
      obtain ⟨rs, tel, mx, mn⟩ := tup
      rw [htup]
      refine ⟨_, rfl, ?_⟩
      obtain ⟨hrs, -, -⟩ := qualiLoadGo_results _ _ [] [] 0 0 rs tel mx mn htup
      obtain ⟨⟨j, hj⟩, hget⟩ := List.mem_iff_get.mp hres
      have hmemrow := qualiRows_index_mem db.nextId qp.telemetry qp.results (db.nextId + 1) j hj
      have hmemsort : qualiResultRow db.nextId (db.nextId + 1 + 2 * j) (qp.results.get ⟨j, hj⟩)
          ∈ List.insertionSort resultLe
            (qualiRows db.nextId qp.telemetry (db.nextId + 1) qp.results).2.1 :=
        (List.perm_insertionSort resultLe _).mem_iff.mpr hmemrow
      refine ⟨outResOf (mkQualiDB db y r st info qp)
        (qualiResultRow db.nextId (db.nextId + 1 + 2 * j) (qp.results.get ⟨j, hj⟩)), ?_, ?_, ?_⟩
      · rw [hrs, List.nil_append]
        exact List.mem_map_of_mem _ hmemsort
      · simp only [outResOf]
        have hdid : (qualiResultRow db.nextId (db.nextId + 1 + 2 * j) (qp.results.get ⟨j, hj⟩)).driver_id
            = db.nextId + 1 + 2 * j := rfl
        rw [hdid, find_qualiDriver db y r st info qp hwf j hj]
        rw [hget]
        rfl
      · simp only [outResOf]
        have hdid : (qualiResultRow db.nextId (db.nextId + 1 + 2 * j) (qp.results.get ⟨j, hj⟩)).driver_id
            = db.nextId + 1 + 2 * j := rfl
        rw [hdid, find_qualiDriver db y r st info qp hwf j hj]
        show ((qualiDriverRow db.nextId (db.nextId + 1 + 2 * j) (qp.results.get ⟨j, hj⟩)).color_r, _, _)
          = defaultColor
        rw [hget]
        show ((res.color.getD defaultColor).1, (res.color.getD defaultColor).2.1,
          (res.color.getD defaultColor).2.2) = defaultColor
        rw [hcol]
        rfl

/-- A one-frame race payload whose driver `ALO` has no color entry. -/
def f0NC : InFrame := ⟨some 1, none, none, [("ALO", sampleB)]⟩

def pNoColor : RacePayload := ⟨[f0NC], [], [], 1⟩

/-- A qualifying payload whose only result entry has no color. -/
def qpNoColor : QualiPayload := ⟨[⟨"ALO", none, none, 5, none, none, none⟩], []⟩

theorem c10_witness :
    ((∃ d, d ∈ (saveRaceTelemetry emptyDB 2024 1 "R" info0 pNoColor none).2.drivers ∧
        d.driver_code = "ALO" ∧ (d.color_r, d.color_g, d.color_b) = defaultColor) ∧
      ∃ out, loadRaceTelemetry (saveRaceTelemetry emptyDB 2024 1 "R" info0 pNoColor none).2
          2024 1 "R" = some out ∧
        out.driver_colors.lookup "ALO" = some defaultColor) ∧
    ((∃ d, d ∈ (saveQualifyingTelemetry emptyDB 2024 1 "Q" info0 qpNoColor).2.drivers ∧
        d.driver_code = "ALO" ∧ (d.color_r, d.color_g, d.color_b) = defaultColor) ∧
      ∃ out, loadQualifyingTelemetry (saveQualifyingTelemetry emptyDB 2024 1 "Q" info0 qpNoColor).2
          2024 1 "Q" = some out ∧
        ∃ e, e ∈ out.results ∧ e.code = "ALO" ∧ e.color = defaultColor) :=
  ⟨c10_default_color.1 emptyDB 2024 1 "R" info0 pNoColor f0NC [] "ALO"
      (by decide) (by decide) (by decide) rfl (by decide) (by decide),
    c10_default_color.2 emptyDB 2024 1 "Q" info0 qpNoColor ⟨"ALO", none, none, 5, none, none, none⟩
      (by decide) (by decide) (by decide) (by decide) rfl⟩
